import Mathlib

/-!
Verification development for the Neko-Oracle-RWA repository: an on-chain
lending protocol for tokenized real-world assets backed by a price oracle,
together with its off-chain price ingestion and publishing pipeline.

The Rust contracts (lending pool, oracle contract) are documented in the
repository but their Rust sources are not part of the source tree here, so
the corresponding definitions are modelled from the specification (each such
definition's doc comment starts with `Modelled from the spec:`).  The
TypeScript components (Finnhub price adapter, Soroban publisher, Redis
storage service) are embedded directly from their sources.
-/

namespace NekoOracle

/-! ## Fixed-point constants and share/underlying conversions -/

/-- Fixed-point scalar: rates are scaled by `10^7` (seven decimals, the
decimal count used throughout the repository, e.g. the RWA token example). -/
def SCALAR : Nat := 10000000

/-- Seconds per (non-leap) year, used to pro-rate annual interest rates. -/
def SECONDS_PER_YEAR : Nat := 31536000

/-- Basis-point denominator. -/
def BPS : Nat := 10000

/-- Modelled from the spec: conversion from underlying amount to shares,
rounding down (used when minting bTokens for a deposit — favors the pool). -/
def toSharesDown (underlying rate : Nat) : Nat := underlying * SCALAR / rate

/-- Modelled from the spec: conversion from underlying amount to shares,
rounding up (used when minting dTokens for a borrow — the borrower owes
slightly more, favoring the pool). -/
def toSharesUp (underlying rate : Nat) : Nat := (underlying * SCALAR + rate - 1) / rate

/-- Modelled from the spec: conversion from shares to underlying, rounding
down (used when burning bTokens for a withdrawal — favors the pool). -/
def toUnderlyingDown (shares rate : Nat) : Nat := shares * rate / SCALAR

/-- Modelled from the spec: conversion from shares to underlying, rounding
up (used when burning dTokens for a repayment — favors the pool). -/
def toUnderlyingUp (shares rate : Nat) : Nat := (shares * rate + SCALAR - 1) / SCALAR

/-! ## Interest rate model (spec §4.1) -/

/-- Modelled from the spec: per-asset interest rate parameters.  Rates are
scaled by `SCALAR`; `targetUtilization` is in basis points. -/
structure InterestRateParams where
  baseRate : Nat
  intermediateRate : Nat
  maxRate : Nat
  targetUtilization : Nat
deriving DecidableEq

/-- Modelled from the spec: three-segment piecewise-linear interest rate
curve keyed by `targetUtilization` and a 95% ceiling.  `utilization` is in
basis points; the result is an annual rate scaled by `SCALAR`.  Above the
95% band the rate is the capped maximum. -/
def rateCurve (utilization : Nat) (p : InterestRateParams) : Nat :=
  if utilization ≤ p.targetUtilization then
    p.baseRate + (p.intermediateRate - p.baseRate) * utilization / max p.targetUtilization 1
  else if utilization ≤ 9500 then
    p.intermediateRate +
      (p.maxRate - p.intermediateRate) * (utilization - p.targetUtilization) /
        max (9500 - p.targetUtilization) 1
  else
    p.maxRate

/-- Bounded per-accrual step for the reserve's rate modifier. -/
def RATE_MOD_STEP : Nat := 100000

/-- Modelled from the spec: the per-reserve `rateModifier` is adjusted by a
bounded step per accrual toward pushing utilization back to the target,
clamped between 0.1 and 10 (scaled by `SCALAR`). -/
def adjustRateModifier (m utilization target : Nat) : Nat :=
  if target < utilization then min (m + RATE_MOD_STEP) (10 * SCALAR)
  else max (m - RATE_MOD_STEP) (SCALAR / 10)

/-! ## Reserve state and accrual (spec §3, §4.2) -/

/-- Modelled from the spec: per-asset reserve state of the lending pool.
`bTokenRate` and `dTokenRate` are exchange rates from shares to underlying,
scaled by `SCALAR` and starting at `SCALAR` (1.0). -/
structure ReserveState where
  params : InterestRateParams
  totalDeposited : Nat
  totalBorrowed : Nat
  bTokenRate : Nat
  dTokenRate : Nat
  rateModifier : Nat
  lastAccrual : Nat
deriving DecidableEq

/-- Modelled from the spec: a freshly created reserve — zero totals, both
exchange rates at 1.0 (`SCALAR`), neutral rate modifier. -/
def initReserve (p : InterestRateParams) (now : Nat) : ReserveState :=
  { params := p, totalDeposited := 0, totalBorrowed := 0,
    bTokenRate := SCALAR, dTokenRate := SCALAR,
    rateModifier := SCALAR, lastAccrual := now }

/-- Modelled from the spec: `utilization = totalBorrowed / totalDeposited`
in basis points (0 for an empty reserve). -/
def utilizationOf (r : ReserveState) : Nat :=
  if r.totalDeposited = 0 then 0 else r.totalBorrowed * BPS / r.totalDeposited

/-- Current borrow rate of a reserve: the curve rate scaled by the
reserve's rate modifier. -/
def borrowRateOf (r : ReserveState) : Nat :=
  rateCurve (utilizationOf r) r.params * r.rateModifier / SCALAR

/-- Pro-rated debt-side growth factor (scaled by `SCALAR`) accrued since
the last accrual. -/
def dDeltaOf (r : ReserveState) (now : Nat) : Nat :=
  borrowRateOf r * (now - r.lastAccrual) / SECONDS_PER_YEAR

/-- Pro-rated lender-side growth factor: the debt-side growth scaled by
utilization and reduced by the backstop take rate (spec §4.2). -/
def bDeltaOf (r : ReserveState) (takeRate now : Nat) : Nat :=
  dDeltaOf r now * utilizationOf r * (BPS - takeRate) / (BPS * BPS)

/-- Modelled from the spec: lazy interest accrual (§4.2).  Computes elapsed
time since `lastAccrual`, applies the current annual rate pro-rated by the
elapsed time, and grows `bTokenRate`/`dTokenRate` accordingly; the lender
side grows by the utilization-scaled rate net of the backstop take rate.
The rate modifier takes one bounded adjustment step per (time-advancing)
accrual. -/
def accrue (r : ReserveState) (takeRate now : Nat) : ReserveState :=
  { r with
    dTokenRate := r.dTokenRate * (SCALAR + dDeltaOf r now) / SCALAR,
    bTokenRate := r.bTokenRate * (SCALAR + bDeltaOf r takeRate now) / SCALAR,
    rateModifier :=
      if now - r.lastAccrual = 0 then r.rateModifier
      else adjustRateModifier r.rateModifier (utilizationOf r) r.params.targetUtilization,
    lastAccrual := now }

@[simp] theorem accrue_totalDeposited (r : ReserveState) (t n : Nat) :
    (accrue r t n).totalDeposited = r.totalDeposited := rfl

@[simp] theorem accrue_totalBorrowed (r : ReserveState) (t n : Nat) :
    (accrue r t n).totalBorrowed = r.totalBorrowed := rfl

@[simp] theorem accrue_lastAccrual (r : ReserveState) (t n : Nat) :
    (accrue r t n).lastAccrual = n := rfl

@[simp] theorem accrue_params (r : ReserveState) (t n : Nat) :
    (accrue r t n).params = r.params := rfl

theorem SCALAR_pos : 0 < SCALAR := by decide

/-- One accrual step never decreases the bToken exchange rate. -/
theorem accrue_bTokenRate_le (r : ReserveState) (t n : Nat) :
    r.bTokenRate ≤ (accrue r t n).bTokenRate := by
  show r.bTokenRate ≤ r.bTokenRate * (SCALAR + bDeltaOf r t n) / SCALAR
  calc r.bTokenRate = r.bTokenRate * SCALAR / SCALAR := by
        rw [Nat.mul_div_cancel _ SCALAR_pos]
    _ ≤ r.bTokenRate * (SCALAR + bDeltaOf r t n) / SCALAR :=
        Nat.div_le_div_right (Nat.mul_le_mul_left _ (Nat.le_add_right _ _))

/-- One accrual step never decreases the dToken exchange rate. -/
theorem accrue_dTokenRate_le (r : ReserveState) (t n : Nat) :
    r.dTokenRate ≤ (accrue r t n).dTokenRate := by
  show r.dTokenRate ≤ r.dTokenRate * (SCALAR + dDeltaOf r n) / SCALAR
  calc r.dTokenRate = r.dTokenRate * SCALAR / SCALAR := by
        rw [Nat.mul_div_cancel _ SCALAR_pos]
    _ ≤ r.dTokenRate * (SCALAR + dDeltaOf r n) / SCALAR :=
        Nat.div_le_div_right (Nat.mul_le_mul_left _ (Nat.le_add_right _ _))

/-- Accruing at the reserve's own `lastAccrual` timestamp (zero elapsed
time) leaves the bToken exchange rate unchanged. -/
theorem accrue_bTokenRate_self (r : ReserveState) (t n : Nat)
    (h : r.lastAccrual = n) : (accrue r t n).bTokenRate = r.bTokenRate := by
  show r.bTokenRate * (SCALAR + bDeltaOf r t n) / SCALAR = r.bTokenRate
  have he : n - r.lastAccrual = 0 := by omega
  have hd : dDeltaOf r n = 0 := by
    unfold dDeltaOf
    rw [he, Nat.mul_zero, Nat.zero_div]
  have hb : bDeltaOf r t n = 0 := by
    unfold bDeltaOf
    rw [hd, Nat.zero_mul, Nat.zero_mul, Nat.zero_div]
  rw [hb, Nat.add_zero, Nat.mul_div_cancel _ SCALAR_pos]

/-- Accruing with zero elapsed time leaves the dToken exchange rate
unchanged. -/
theorem accrue_dTokenRate_self (r : ReserveState) (t n : Nat)
    (h : r.lastAccrual = n) : (accrue r t n).dTokenRate = r.dTokenRate := by
  show r.dTokenRate * (SCALAR + dDeltaOf r n) / SCALAR = r.dTokenRate
  have he : n - r.lastAccrual = 0 := by omega
  have hd : dDeltaOf r n = 0 := by
    unfold dDeltaOf
    rw [he, Nat.mul_zero, Nat.zero_div]
  rw [hd, Nat.add_zero, Nat.mul_div_cancel _ SCALAR_pos]

/-- Folding a sequence of accrual calls over a reserve. -/
def accrueSeq (r : ReserveState) (takeRate : Nat) (ts : List Nat) : ReserveState :=
  ts.foldl (fun s t => accrue s takeRate t) r

/-- Depositing then immediately withdrawing converts through
`toSharesDown`/`toUnderlyingDown` at the same rate and can only lose to
rounding, never gain. -/
theorem toUnderlying_toShares_le (x rate : Nat) :
    toUnderlyingDown (toSharesDown x rate) rate ≤ x := by
  unfold toUnderlyingDown toSharesDown
  calc x * SCALAR / rate * rate / SCALAR ≤ x * SCALAR / SCALAR :=
        Nat.div_le_div_right (Nat.div_mul_le_self _ _)
    _ = x := Nat.mul_div_cancel _ SCALAR_pos

/-! ## Association-list helpers (ledger stores keyed by identifier) -/

/-- Lookup in an association list (ledger storage keyed by identifier). -/
def alookup {κ α : Type} [DecidableEq κ] : List (κ × α) → κ → Option α
  | [], _ => none
  | (k', v) :: t, k => if k' = k then some v else alookup t k

/-- Insert-or-replace in an association list. -/
def aupdate {κ α : Type} [DecidableEq κ] : List (κ × α) → κ → α → List (κ × α)
  | [], k, v => [(k, v)]
  | (k', v') :: t, k, v =>
      if k' = k then (k, v) :: t else (k', v') :: aupdate t k v

theorem alookup_mem {κ α : Type} [DecidableEq κ] {l : List (κ × α)} {k : κ} {v : α}
    (h : alookup l k = some v) : (k, v) ∈ l := by
  induction l with
  | nil => simp [alookup] at h
  | cons hd t ih =>
    obtain ⟨k', v'⟩ := hd
    by_cases hk : k' = k
    · subst hk
      simp [alookup] at h
      subst h
      exact List.mem_cons_self _ _
    · simp [alookup, hk] at h
      exact List.mem_cons_of_mem _ (ih h)

theorem mem_aupdate {κ α : Type} [DecidableEq κ] {l : List (κ × α)} {k : κ} {v : α}
    {e : κ × α} (h : e ∈ aupdate l k v) : e = (k, v) ∨ e ∈ l := by
  induction l with
  | nil => simp [aupdate] at h; simp [h]
  | cons hd t ih =>
    obtain ⟨k', v'⟩ := hd
    by_cases hk : k' = k
    · subst hk
      simp only [aupdate, if_pos rfl] at h
      rcases List.mem_cons.mp h with h1 | h1
      · exact Or.inl h1
      · exact Or.inr (List.mem_cons_of_mem _ h1)
    · simp only [aupdate, if_neg hk] at h
      rcases List.mem_cons.mp h with h1 | h1
      · exact Or.inr (h1 ▸ List.mem_cons_self _ _)
      · rcases ih h1 with h2 | h2
        · exact Or.inl h2
        · exact Or.inr (List.mem_cons_of_mem _ h2)

@[simp] theorem alookup_aupdate_self {κ α : Type} [DecidableEq κ]
    (l : List (κ × α)) (k : κ) (v : α) : alookup (aupdate l k v) k = some v := by
  induction l with
  | nil => simp [aupdate, alookup]
  | cons hd t ih =>
    obtain ⟨k', v'⟩ := hd
    by_cases hk : k' = k
    · subst hk; simp [aupdate, alookup]
    · simp [aupdate, alookup, hk, ih]

/-! ## Price oracle (spec §6; packages/oracle/src/index.ts bindings) -/

/-- Quoted asset definition (SEP-40 compatible), from the generated oracle
TypeScript bindings in packages/oracle/src/index.ts. -/
inductive Asset where
  | Stellar (addr : String)
  | Other (sym : String)
deriving DecidableEq

/-- Price record definition (SEP-40 compatible), from
packages/oracle/src/index.ts: `price : i128`, `timestamp : u64`. -/
structure PriceData where
  price : Int
  timestamp : Nat
deriving DecidableEq

/-- Modelled from the spec: the oracle contract state — per-asset price
history, newest record first.  The Rust oracle contract itself is not in
the source tree; only its generated TypeScript client bindings are. -/
structure OracleState where
  records : List (Asset × List PriceData)
deriving DecidableEq

/-- Modelled from the spec: `lastprice(asset) -> Option PriceData` — the
newest price record for the asset, or `none` when the oracle has no data
for it. -/
def lastprice (o : OracleState) (asset : Asset) : Option PriceData :=
  (alookup o.records asset).bind List.head?

/-- Modelled from the spec: `price(asset, timestamp) -> Option PriceData`
— the price record at the given timestamp, or `none` when absent. -/
def priceAt (o : OracleState) (asset : Asset) (ts : Nat) : Option PriceData :=
  (alookup o.records asset).bind (List.find? (fun pd => pd.timestamp == ts))

/-! ## Lending pool data model (spec §3) -/

/-- Modelled from the spec: error reason codes of the lending pool (spec
§7 error taxonomy).  A rejected operation returns an error and leaves the
ledger untouched (Soroban transactions are all-or-nothing). -/
inductive Err where
  | UnsupportedAsset
  | InvalidAmount
  | InsufficientShares
  | InsufficientLiquidity
  | WithdrawBelowBorrows
  | OraclePriceMissing
  | Unhealthy
  | PositionHealthy
  | DebtAssetConflict
  | BackstopNotActive
  | AuctionExists
  | AuctionNotFound
  | InvalidPercent
  | WithdrawalPending
  | NoPendingWithdrawal
  | TimeLocked
deriving DecidableEq

/-- Modelled from the spec: a borrower's position — raw RWA collateral
amounts per token, at most one debt asset with its dToken share balance,
and bToken share balances per lending asset. -/
structure Position where
  collateral : List (String × Nat)
  debtAsset : Option String
  dTokens : Nat
  bTokens : List (String × Nat)
deriving DecidableEq

/-- A position with all balances zero (positions are created lazily). -/
def emptyPosition : Position :=
  { collateral := [], debtAsset := none, dTokens := 0, bTokens := [] }

/-- Modelled from the spec: auction status state machine
`None → Active → {Filled, Expired, Cancelled}`. -/
inductive AuctionStatus where
  | Active
  | Filled
  | Expired
  | Cancelled
deriving DecidableEq

/-- Modelled from the spec: a Dutch-auction liquidation record, keyed by
(borrower, collateral-asset); `liabilityPercent` is the remaining target
liability percentage in basis points. -/
structure Auction where
  borrower : String
  collateralAsset : String
  start : Nat
  liabilityPercent : Nat
  status : AuctionStatus
deriving DecidableEq

/-- Modelled from the spec: a backstop depositor's account — backstop
shares plus at most one pending queued withdrawal `(shareAmount,
unlockTime)`. -/
structure BackstopAccount where
  shares : Nat
  pending : Option (Nat × Nat)
deriving DecidableEq

/-- Modelled from the spec: the backstop module's first-loss capital pool,
with share-based accounting like the reserves. -/
structure BackstopState where
  accounts : List (String × BackstopAccount)
  totalShares : Nat
  totalUnderlying : Nat
deriving DecidableEq

/-- Modelled from the spec: the lending pool singleton state — per-asset
reserves, per-borrower positions, auction records, the backstop module,
and the static configuration (collateral factors in basis points,
backstop threshold and take rate). -/
structure Pool where
  reserves : List (String × ReserveState)
  positions : List (String × Position)
  auctions : List Auction
  backstop : BackstopState
  collateralFactors : List (String × Nat)
  backstopThreshold : Nat
  backstopTakeRate : Nat
deriving DecidableEq

/-- Modelled from the spec: constructor arguments of the lending pool. -/
structure PoolConfig where
  supportedAssets : List (String × InterestRateParams)
  collateralFactors : List (String × Nat)
  backstopThreshold : Nat
  backstopTakeRate : Nat
  creationTime : Nat

/-- Modelled from the spec: pool construction — one fresh reserve per
supported asset, no positions, no auctions, an empty backstop. -/
def initPool (cfg : PoolConfig) : Pool :=
  { reserves := cfg.supportedAssets.map (fun e => (e.1, initReserve e.2 cfg.creationTime)),
    positions := [],
    auctions := [],
    backstop := { accounts := [], totalShares := 0, totalUnderlying := 0 },
    collateralFactors := cfg.collateralFactors,
    backstopThreshold := cfg.backstopThreshold,
    backstopTakeRate := cfg.backstopTakeRate }

/-- A borrower's position, created lazily on first use. -/
def getPosition (p : Pool) (user : String) : Position :=
  (alookup p.positions user).getD emptyPosition

/-! ## Collateral and health engine (spec §4.3) -/

/-- Modelled from the spec: fail-closed price lookup for the pool — a
missing price, or a zero (or negative) reported price, is an oracle
failure, never silently replaced by a default. -/
def requirePrice (o : OracleState) (sym : String) : Except Err Nat :=
  match lastprice o (Asset.Other sym) with
  | none => .error .OraclePriceMissing
  | some pd => if pd.price ≤ 0 then .error .OraclePriceMissing else .ok pd.price.toNat

/-- Modelled from the spec: risk-adjusted value of a collateral list —
`amount * oraclePrice * collateralFactor / 10000` summed over all
collateral assets, failing closed when any price is missing. -/
def collateralValueList (p : Pool) (o : OracleState) : List (String × Nat) → Except Err Nat
  | [] => .ok 0
  | (sym, amt) :: rest => do
    let price ← requirePrice o sym
    let cf := (alookup p.collateralFactors sym).getD 0
    let restV ← collateralValueList p o rest
    .ok (amt * price * cf / BPS + restV)

/-- Risk-adjusted collateral value of a position. -/
def collateralValue (p : Pool) (o : OracleState) (pos : Position) : Except Err Nat :=
  collateralValueList p o pos.collateral

/-- Modelled from the spec: debt value of a position —
`toUnderlying(dTokens, dTokenRate) * oraclePrice(debtAsset)` (rounding the
owed underlying up, favoring the pool), zero when no debt is open. -/
def debtValue (p : Pool) (o : OracleState) (pos : Position) : Except Err Nat :=
  match pos.debtAsset with
  | none => .ok 0
  | some asset =>
    match alookup p.reserves asset with
    | none => .error .UnsupportedAsset
    | some r => do
      let price ← requirePrice o asset
      .ok (toUnderlyingUp pos.dTokens r.dTokenRate * price)

/-- Modelled from the spec: a position is healthy iff its health factor is
at least 1.0, i.e. risk-adjusted collateral value covers debt value (a
debt-free position is maximally healthy).  Fails closed when a required
price is unavailable. -/
def isHealthy (p : Pool) (o : OracleState) (pos : Position) : Except Err Bool := do
  let c ← collateralValue p o pos
  let d ← debtValue p o pos
  .ok (decide (d ≤ c))

/-- Accrue the reserve backing a position's open debt (if any) so health
checks value debt with up-to-date rates. -/
def accrueDebtReserve (p : Pool) (pos : Position) (now : Nat) : Pool :=
  match pos.debtAsset with
  | none => p
  | some da =>
    match alookup p.reserves da with
    | none => p
    | some r0 =>
      { p with reserves := aupdate p.reserves da (accrue r0 p.backstopTakeRate now) }

/-! ## Lending pool operations (spec §4.4) -/

/-- Modelled from the spec: `deposit(asset, amount)` — accrue, require the
asset supported and the amount strictly positive, mint
`toShares(amount, bTokenRate)` bTokens (rounded down) to the caller,
increase `totalDeposited`.  Returns the minted bToken amount. -/
def deposit (p : Pool) (user asset : String) (amount now : Nat) :
    Except Err (Pool × Nat) :=
  if amount = 0 then .error .InvalidAmount else
  match alookup p.reserves asset with
  | none => .error .UnsupportedAsset
  | some r0 =>
    let r := accrue r0 p.backstopTakeRate now
    let shares := toSharesDown amount r.bTokenRate
    let r' := { r with totalDeposited := r.totalDeposited + amount }
    let pos := getPosition p user
    let pos' := { pos with
      bTokens := aupdate pos.bTokens asset ((alookup pos.bTokens asset).getD 0 + shares) }
    .ok ({ p with reserves := aupdate p.reserves asset r',
                  positions := aupdate p.positions user pos' }, shares)

/-- Modelled from the spec: `withdraw(asset, bTokenAmount)` — accrue,
require the caller to hold at least `bTokenAmount` bTokens, compute the
underlying rounded down, and require
`totalDeposited - underlying ≥ totalBorrowed` (deposits cannot be drawn
below outstanding borrows); burn the shares and pay out the underlying. -/
def withdraw (p : Pool) (user asset : String) (bTokenAmount now : Nat) :
    Except Err (Pool × Nat) :=
  if bTokenAmount = 0 then .error .InvalidAmount else
  match alookup p.reserves asset with
  | none => .error .UnsupportedAsset
  | some r0 =>
    let r := accrue r0 p.backstopTakeRate now
    let pos := getPosition p user
    let held := (alookup pos.bTokens asset).getD 0
    if held < bTokenAmount then .error .InsufficientShares else
    let underlying := toUnderlyingDown bTokenAmount r.bTokenRate
    if r.totalDeposited < underlying then .error .WithdrawBelowBorrows else
    if r.totalDeposited - underlying < r.totalBorrowed then .error .WithdrawBelowBorrows else
    let r' := { r with totalDeposited := r.totalDeposited - underlying }
    let pos' := { pos with bTokens := aupdate pos.bTokens asset (held - bTokenAmount) }
    .ok ({ p with reserves := aupdate p.reserves asset r',
                  positions := aupdate p.positions user pos' }, underlying)

/-- Modelled from the spec: `add_collateral(rwaToken, amount)` — transfer
the RWA token in; requires a strictly positive amount and a token with a
configured collateral factor. -/
def add_collateral (p : Pool) (user rwaToken : String) (amount : Nat) :
    Except Err Pool :=
  if amount = 0 then .error .InvalidAmount else
  match alookup p.collateralFactors rwaToken with
  | none => .error .UnsupportedAsset
  | some _ =>
    let pos := getPosition p user
    let pos' := { pos with
      collateral := aupdate pos.collateral rwaToken
        ((alookup pos.collateral rwaToken).getD 0 + amount) }
    .ok { p with positions := aupdate p.positions user pos' }

/-- Modelled from the spec: `remove_collateral(rwaToken, amount)` —
requires sufficient collateral held and a recomputed health factor ≥ 1.0
*after* removal, evaluated against fresh oracle data (fail closed when a
price is missing). -/
def remove_collateral (p : Pool) (user rwaToken : String) (amount now : Nat)
    (o : OracleState) : Except Err Pool :=
  if amount = 0 then .error .InvalidAmount else
  let pos := getPosition p user
  let held := (alookup pos.collateral rwaToken).getD 0
  if held < amount then .error .InsufficientShares else
  let p1 := accrueDebtReserve p pos now
  let pos' := { pos with collateral := aupdate pos.collateral rwaToken (held - amount) }
  match isHealthy p1 o pos' with
  | .error e => .error e
  | .ok false => .error .Unhealthy
  | .ok true => .ok { p1 with positions := aupdate p1.positions user pos' }

/-- Modelled from the spec: `borrow(asset, amount)` — accrue; require the
backstop activation threshold met, no open debt in a different asset,
`totalBorrowed + amount ≤ totalDeposited` (cannot borrow more than the
available liquidity), and a post-borrow health factor ≥ 1.0 computed from
fresh prices (fail closed when a price is missing); mint dTokens rounded
up. -/
def borrow (p : Pool) (user asset : String) (amount now : Nat)
    (o : OracleState) : Except Err Pool :=
  if amount = 0 then .error .InvalidAmount else
  match alookup p.reserves asset with
  | none => .error .UnsupportedAsset
  | some r0 =>
    if p.backstop.totalUnderlying < p.backstopThreshold then .error .BackstopNotActive else
    let r := accrue r0 p.backstopTakeRate now
    let pos := getPosition p user
    if pos.debtAsset.getD asset ≠ asset then .error .DebtAssetConflict else
    if r.totalDeposited < r.totalBorrowed + amount then .error .InsufficientLiquidity else
    let shares := toSharesUp amount r.dTokenRate
    let pos' := { pos with debtAsset := some asset, dTokens := pos.dTokens + shares }
    let r' := { r with totalBorrowed := r.totalBorrowed + amount }
    let p' := { p with reserves := aupdate p.reserves asset r',
                       positions := aupdate p.positions user pos' }
    match isHealthy p' o pos' with
    | .error e => .error e
    | .ok false => .error .Unhealthy
    | .ok true => .ok p'

/-- Modelled from the spec: `repay(asset, dTokenAmount)` — accrue, require
an open debt in this asset and a sufficient dToken balance; the underlying
owed is rounded up; burn the dTokens, decrease `totalBorrowed`, and clear
the debt-asset identifier on full repayment.  Returns the underlying
transferred in. -/
def repay (p : Pool) (user asset : String) (dTokenAmount now : Nat) :
    Except Err (Pool × Nat) :=
  if dTokenAmount = 0 then .error .InvalidAmount else
  match alookup p.reserves asset with
  | none => .error .UnsupportedAsset
  | some r0 =>
    let r := accrue r0 p.backstopTakeRate now
    let pos := getPosition p user
    if pos.debtAsset ≠ some asset then .error .DebtAssetConflict else
    if pos.dTokens < dTokenAmount then .error .InsufficientShares else
    let underlying := toUnderlyingUp dTokenAmount r.dTokenRate
    let newD := pos.dTokens - dTokenAmount
    let pos' := { pos with dTokens := newD,
                           debtAsset := if newD = 0 then none else some asset }
    let r' := { r with totalBorrowed := r.totalBorrowed - underlying }
    .ok ({ p with reserves := aupdate p.reserves asset r',
                  positions := aupdate p.positions user pos' }, underlying)

/-! ## Dutch auction liquidation engine (spec §4.5) -/

/-- Ramp window (time units) over which the auction modifiers decay. -/
def AUCTION_RAMP : Nat := 200

/-- Maximum total auction duration; beyond it the auction expires. -/
def AUCTION_DURATION : Nat := 400

/-- Maximum extra-collateral bonus of the lot modifier, in basis points. -/
def LM_MAX : Nat := 5000

/-- Modelled from the spec: lot modifier — rises linearly from 0 toward
`LM_MAX` over the ramp window, clamped at the maximum (bps). -/
def lotModifierAt (elapsed : Nat) : Nat :=
  min (LM_MAX * elapsed / AUCTION_RAMP) LM_MAX

/-- Modelled from the spec: bid modifier — decreases linearly from 100%
toward a floor of 0% over the ramp window, clamped (bps). -/
def bidModifierAt (elapsed : Nat) : Nat :=
  BPS - min (BPS * elapsed / AUCTION_RAMP) BPS

/-- Is there an Active auction for this (borrower, collateral-asset) pair? -/
def hasActiveAuction (auctions : List Auction) (b c : String) : Bool :=
  auctions.any (fun a =>
    decide (a.borrower = b ∧ a.collateralAsset = c ∧ a.status = AuctionStatus.Active))

/-- Rewrite the Active auction of a (borrower, collateral-asset) pair in
place, leaving every other record untouched. -/
def updateAuction (auctions : List Auction) (b c : String) (f : Auction → Auction) :
    List Auction :=
  auctions.map (fun a =>
    if a.borrower = b ∧ a.collateralAsset = c ∧ a.status = AuctionStatus.Active
    then f a else a)

/-- Modelled from the spec: `initiate_liquidation(borrower,
collateralAsset, liabilityPercent)` — requires `liabilityPercent ∈
(0, 10000]` basis points, no existing Active auction for the pair, and a
health factor < 1.0 computed from fresh prices (fail closed when a price
is missing); creates an Active auction with `start = now`. -/
def initiate_liquidation (p : Pool) (borrower collateralAsset : String)
    (liabilityPercent now : Nat) (o : OracleState) : Except Err Pool :=
  if liabilityPercent = 0 then .error .InvalidPercent else
  if BPS < liabilityPercent then .error .InvalidPercent else
  if hasActiveAuction p.auctions borrower collateralAsset then .error .AuctionExists else
  let pos := getPosition p borrower
  let p1 := accrueDebtReserve p pos now
  match isHealthy p1 o pos with
  | .error e => .error e
  | .ok true => .error .PositionHealthy
  | .ok false =>
    .ok { p1 with auctions := p1.auctions ++
      [{ borrower := borrower, collateralAsset := collateralAsset,
         start := now, liabilityPercent := liabilityPercent,
         status := AuctionStatus.Active }] }

/-- Modelled from the spec: `fill_auction(borrower, collateralAsset,
fillPercent)` — requires an Active auction and `fillPercent ∈
(0, remaining-liability-percent]`.  Past the maximum duration the auction
transitions to Expired.  Otherwise the debt portion repaid is scaled by
the bid modifier and the collateral released by the lot modifier (both
capped at what is outstanding/held); the borrower's dTokens are burned and
`totalBorrowed` reduced.  If collateral is exhausted before the debt, the
shortfall is socialized to the backstop and the reserve written down.  A
full fill sets the auction to Filled; if the position is healthy after the
fill, the remainder is Cancelled (self-cure), valued at fresh prices. -/
def fill_auction (p : Pool) (borrower collateralAsset : String)
    (fillPercent now : Nat) (o : OracleState) : Except Err Pool :=
  match p.auctions.find? (fun a =>
      decide (a.borrower = borrower ∧ a.collateralAsset = collateralAsset ∧
              a.status = AuctionStatus.Active)) with
  | none => .error .AuctionNotFound
  | some a =>
    if a.start + AUCTION_DURATION < now then
      .ok { p with auctions := (updateAuction p.auctions borrower collateralAsset
              (fun x => { x with status := AuctionStatus.Expired })) }
    else
    if fillPercent = 0 then .error .InvalidPercent else
    if a.liabilityPercent < fillPercent then .error .InvalidPercent else
    let pos := getPosition p borrower
    match pos.debtAsset with
    | none => .error .PositionHealthy
    | some da =>
      match alookup p.reserves da with
      | none => .error .UnsupportedAsset
      | some r0 =>
        let r := accrue r0 p.backstopTakeRate now
        let elapsed := now - a.start
        let debtOwed := toUnderlyingUp pos.dTokens r.dTokenRate
        let debtPortion :=
          min (debtOwed * fillPercent / BPS * bidModifierAt elapsed / BPS) debtOwed
        let held := (alookup pos.collateral collateralAsset).getD 0
        let collPortion :=
          min (held * fillPercent / BPS * (BPS + lotModifierAt elapsed) / BPS) held
        let sharesBurned := min (toSharesUp debtPortion r.dTokenRate) pos.dTokens
        let dTokens1 := pos.dTokens - sharesBurned
        let heldAfter := held - collPortion
        let shortfall :=
          if heldAfter = 0 ∧ 0 < dTokens1 then toUnderlyingUp dTokens1 r.dTokenRate else 0
        let dTokens2 := if heldAfter = 0 then 0 else dTokens1
        let pos' := { pos with
          collateral := aupdate pos.collateral collateralAsset heldAfter,
          dTokens := dTokens2,
          debtAsset := if dTokens2 = 0 then none else some da }
        let r' := { r with totalBorrowed := r.totalBorrowed - debtPortion - shortfall }
        let bs := p.backstop
        let bs' := { bs with totalUnderlying := bs.totalUnderlying - shortfall }
        let remaining := a.liabilityPercent - fillPercent
        let newStatus := if remaining = 0 then AuctionStatus.Filled else AuctionStatus.Active
        let p' := { p with
          reserves := aupdate p.reserves da r',
          positions := aupdate p.positions borrower pos',
          auctions := (updateAuction p.auctions borrower collateralAsset
            (fun x => { x with liabilityPercent := remaining, status := newStatus })),
          backstop := bs' }
        match isHealthy p' o pos' with
        | .error e => .error e
        | .ok true =>
          .ok { p' with auctions := (updateAuction p'.auctions borrower collateralAsset
                  (fun x => { x with status := AuctionStatus.Cancelled })) }
        | .ok false => .ok p'

/-! ## Backstop module (spec §4.6) -/

/-- Queued-withdrawal lock: 21 days in seconds. -/
def BACKSTOP_LOCK : Nat := 21 * 86400

/-- Modelled from the spec: `backstop_deposit(amount)` — mints backstop
shares at the current backstop exchange rate (amount-for-share parity on
an empty backstop). -/
def backstop_deposit (p : Pool) (user : String) (amount : Nat) : Except Err Pool :=
  if amount = 0 then .error .InvalidAmount else
  let bs := p.backstop
  let shares :=
    if bs.totalShares = 0 ∨ bs.totalUnderlying = 0 then amount
    else amount * bs.totalShares / bs.totalUnderlying
  let acct := (alookup bs.accounts user).getD { shares := 0, pending := none }
  .ok { p with backstop :=
    { accounts := aupdate bs.accounts user { acct with shares := acct.shares + shares },
      totalShares := bs.totalShares + shares,
      totalUnderlying := bs.totalUnderlying + amount } }

/-- Modelled from the spec: `initiate_backstop_withdrawal(amount)` —
records a pending withdrawal with `unlockTime = now + 21 days`; a second
call while one is pending fails (one pending withdrawal per depositor). -/
def initiate_backstop_withdrawal (p : Pool) (user : String) (amount now : Nat) :
    Except Err Pool :=
  if amount = 0 then .error .InvalidAmount else
  let bs := p.backstop
  match alookup bs.accounts user with
  | none => .error .InsufficientShares
  | some acct =>
    if acct.shares < amount then .error .InsufficientShares else
    if acct.pending.isSome then .error .WithdrawalPending else
    .ok { p with backstop := { bs with
      accounts := aupdate bs.accounts user
        { acct with pending := some (amount, now + BACKSTOP_LOCK) } } }

/-- Modelled from the spec: `complete_backstop_withdrawal()` — requires a
pending withdrawal whose unlock time has been reached (`now ≥
unlockTime`); burns the shares and transfers the underlying at the current
backstop exchange rate.  Fails (with no state change) before unlock or
with no pending withdrawal. -/
def complete_backstop_withdrawal (p : Pool) (user : String) (now : Nat) :
    Except Err (Pool × Nat) :=
  let bs := p.backstop
  match alookup bs.accounts user with
  | none => .error .NoPendingWithdrawal
  | some acct =>
    match acct.pending with
    | none => .error .NoPendingWithdrawal
    | some (amt, unlock) =>
      if now < unlock then .error .TimeLocked else
      let sharesBurned := min amt acct.shares
      let underlying :=
        if bs.totalShares = 0 then 0
        else sharesBurned * bs.totalUnderlying / bs.totalShares
      .ok ({ p with backstop :=
        { accounts := aupdate bs.accounts user
            { shares := acct.shares - sharesBurned, pending := none },
          totalShares := bs.totalShares - sharesBurned,
          totalUnderlying := bs.totalUnderlying - underlying } }, underlying)

/-! ## Operations and reachability -/

/-- One externally visible pool entry point with its arguments.  Oracle
snapshots are passed per call: every price-dependent operation re-fetches
fresh prices (spec §5). -/
inductive Op where
  | deposit (user asset : String) (amount now : Nat)
  | withdraw (user asset : String) (bTokenAmount now : Nat)
  | add_collateral (user rwaToken : String) (amount : Nat)
  | remove_collateral (user rwaToken : String) (amount now : Nat) (o : OracleState)
  | borrow (user asset : String) (amount now : Nat) (o : OracleState)
  | repay (user asset : String) (dTokenAmount now : Nat)
  | initiate_liquidation (borrower collateralAsset : String)
      (liabilityPercent now : Nat) (o : OracleState)
  | fill_auction (borrower collateralAsset : String) (fillPercent now : Nat)
      (o : OracleState)
  | backstop_deposit (user : String) (amount : Nat)
  | initiate_backstop_withdrawal (user : String) (amount now : Nat)
  | complete_backstop_withdrawal (user : String) (now : Nat)

/-- Execute one pool entry point (returned amounts dropped). -/
def exec (p : Pool) : Op → Except Err Pool
  | .deposit u a amt now => (deposit p u a amt now).map Prod.fst
  | .withdraw u a s now => (withdraw p u a s now).map Prod.fst
  | .add_collateral u t amt => add_collateral p u t amt
  | .remove_collateral u t amt now o => remove_collateral p u t amt now o
  | .borrow u a amt now o => borrow p u a amt now o
  | .repay u a s now => (repay p u a s now).map Prod.fst
  | .initiate_liquidation b c pct now o => initiate_liquidation p b c pct now o
  | .fill_auction b c pct now o => fill_auction p b c pct now o
  | .backstop_deposit u amt => backstop_deposit p u amt
  | .initiate_backstop_withdrawal u amt now => initiate_backstop_withdrawal p u amt now
  | .complete_backstop_withdrawal u now => (complete_backstop_withdrawal p u now).map Prod.fst

/-- The reachable pool states: everything obtainable from a constructor
call by a sequence of successful entry-point executions (failed calls
leave the ledger unchanged). -/
inductive Reachable : Pool → Prop where
  | init (cfg : PoolConfig) : Reachable (initPool cfg)
  | step {p p' : Pool} (o : Op) (h : Reachable p) (hs : exec p o = .ok p') : Reachable p'

/-! ## Pool invariants -/

/-- Solvency: every reserve has `totalBorrowed ≤ totalDeposited`. -/
def solvent (p : Pool) : Prop :=
  ∀ e ∈ p.reserves, e.2.totalBorrowed ≤ e.2.totalDeposited

/-- Two auction records do not both hold an Active auction for the same
(borrower, collateral-asset) pair. -/
def auctionDistinct (a1 a2 : Auction) : Prop :=
  a1.status = AuctionStatus.Active → a2.status = AuctionStatus.Active →
  a1.borrower = a2.borrower → a1.collateralAsset = a2.collateralAsset → False

/-- At most one Active auction per (borrower, collateral-asset) pair. -/
def auctionsOk (p : Pool) : Prop := p.auctions.Pairwise auctionDistinct

/-- The combined pool invariant carried through every reachable state. -/
def Inv (p : Pool) : Prop := solvent p ∧ auctionsOk p

theorem inv_initPool (cfg : PoolConfig) : Inv (initPool cfg) := by
  constructor
  · intro e he
    simp only [initPool, List.mem_map] at he
    obtain ⟨x, _, rfl⟩ := he
    exact Nat.le_refl 0
  · exact List.Pairwise.nil

theorem solvent_deposit {p p' : Pool} {u a : String} {amt now sh : Nat}
    (hp : solvent p) (h : deposit p u a amt now = .ok (p', sh)) :
    solvent p' ∧ p'.auctions = p.auctions := by
  unfold deposit at h
  split at h
  · exact Except.noConfusion h
  · split at h
    · exact Except.noConfusion h
    · rename_i r0 heq
      simp only [] at h
      injection h with h1
      injection h1 with h2 h3
      subst h2
      refine ⟨?_, rfl⟩
      intro e he
      rcases mem_aupdate he with rfl | hm
      · have := hp _ (alookup_mem heq)
        simpa using Nat.le_trans this (Nat.le_add_right _ _)
      · exact hp _ hm

theorem solvent_withdraw {p p' : Pool} {u a : String} {s now amt : Nat}
    (hp : solvent p) (h : withdraw p u a s now = .ok (p', amt)) :
    solvent p' ∧ p'.auctions = p.auctions := by
  unfold withdraw at h
  split at h
  · exact Except.noConfusion h
  split at h
  · exact Except.noConfusion h
  rename_i r0 heq
  simp only [] at h
  split at h
  · exact Except.noConfusion h
  split at h
  · exact Except.noConfusion h
  split at h
  · exact Except.noConfusion h
  rename_i h1 h2 h3
  injection h with h4
  injection h4 with h5 h6
  subst h5
  refine ⟨?_, rfl⟩
  intro e he
  rcases mem_aupdate he with rfl | hm
  · simp only [accrue_totalDeposited, accrue_totalBorrowed] at h2 h3 ⊢
    omega
  · exact hp _ hm

theorem solvent_borrow {p p' : Pool} {u a : String} {amt now : Nat} {o : OracleState}
    (hp : solvent p) (h : borrow p u a amt now o = .ok p') :
    solvent p' ∧ p'.auctions = p.auctions := by
  unfold borrow at h
  split at h
  · exact Except.noConfusion h
  split at h
  · exact Except.noConfusion h
  rename_i r0 heq
  split at h
  · exact Except.noConfusion h
  simp only [] at h
  split at h
  · exact Except.noConfusion h
  split at h
  · exact Except.noConfusion h
  rename_i h1 h2 h3
  split at h
  · exact Except.noConfusion h
  · exact Except.noConfusion h
  injection h with h4
  subst h4
  refine ⟨?_, rfl⟩
  intro e he
  rcases mem_aupdate he with rfl | hm
  · simp only [accrue_totalDeposited, accrue_totalBorrowed] at h3 ⊢
    omega
  · exact hp _ hm

theorem solvent_repay {p p' : Pool} {u a : String} {s now amt : Nat}
    (hp : solvent p) (h : repay p u a s now = .ok (p', amt)) :
    solvent p' ∧ p'.auctions = p.auctions := by
  unfold repay at h
  split at h
  · exact Except.noConfusion h
  split at h
  · exact Except.noConfusion h
  rename_i r0 heq
  simp only [] at h
  split at h
  · exact Except.noConfusion h
  split at h
  · exact Except.noConfusion h
  injection h with h4
  injection h4 with h5 h6
  subst h5
  refine ⟨?_, rfl⟩
  intro e he
  rcases mem_aupdate he with rfl | hm
  · have hb : r0.totalBorrowed ≤ r0.totalDeposited := hp _ (alookup_mem heq)
    show (accrue r0 p.backstopTakeRate now).totalBorrowed -
        toUnderlyingUp s (accrue r0 p.backstopTakeRate now).dTokenRate ≤
        (accrue r0 p.backstopTakeRate now).totalDeposited
    rw [accrue_totalBorrowed, accrue_totalDeposited]
    exact Nat.le_trans (Nat.sub_le _ _) hb
  · exact hp _ hm

theorem solvent_add_collateral {p p' : Pool} {u t : String} {amt : Nat}
    (hp : solvent p) (h : add_collateral p u t amt = .ok p') :
    solvent p' ∧ p'.auctions = p.auctions := by
  unfold add_collateral at h
  split at h
  · exact Except.noConfusion h
  split at h
  · exact Except.noConfusion h
  injection h with h4
  subst h4
  exact ⟨hp, rfl⟩

theorem accrueDebtReserve_solvent {p : Pool} {pos : Position} {now : Nat}
    (hp : solvent p) : solvent (accrueDebtReserve p pos now) := by
  unfold accrueDebtReserve
  split
  · exact hp
  split
  · exact hp
  rename_i da r0 heq
  intro e he
  rcases mem_aupdate he with rfl | hm
  · have := hp _ (alookup_mem heq)
    simpa using this
  · exact hp _ hm

theorem accrueDebtReserve_auctions (p : Pool) (pos : Position) (now : Nat) :
    (accrueDebtReserve p pos now).auctions = p.auctions := by
  unfold accrueDebtReserve
  split
  · rfl
  split <;> rfl

theorem solvent_remove_collateral {p p' : Pool} {u t : String} {amt now : Nat}
    {o : OracleState} (hp : solvent p)
    (h : remove_collateral p u t amt now o = .ok p') :
    solvent p' ∧ p'.auctions = p.auctions := by
  unfold remove_collateral at h
  split at h
  · exact Except.noConfusion h
  simp only [] at h
  split at h
  · exact Except.noConfusion h
  split at h
  · exact Except.noConfusion h
  · exact Except.noConfusion h
  injection h with h4
  subst h4
  exact ⟨accrueDebtReserve_solvent hp, accrueDebtReserve_auctions p _ now⟩

theorem solvent_backstop_deposit {p p' : Pool} {u : String} {amt : Nat}
    (hp : solvent p) (h : backstop_deposit p u amt = .ok p') :
    solvent p' ∧ p'.auctions = p.auctions := by
  unfold backstop_deposit at h
  split at h
  · exact Except.noConfusion h
  simp only [] at h
  injection h with h4
  subst h4
  exact ⟨hp, rfl⟩

theorem solvent_initiate_backstop_withdrawal {p p' : Pool} {u : String} {amt now : Nat}
    (hp : solvent p) (h : initiate_backstop_withdrawal p u amt now = .ok p') :
    solvent p' ∧ p'.auctions = p.auctions := by
  unfold initiate_backstop_withdrawal at h
  split at h
  · exact Except.noConfusion h
  simp only [] at h
  split at h
  · exact Except.noConfusion h
  split at h
  · exact Except.noConfusion h
  split at h
  · exact Except.noConfusion h
  injection h with h4
  subst h4
  exact ⟨hp, rfl⟩

theorem solvent_complete_backstop_withdrawal {p p' : Pool} {u : String} {now amt : Nat}
    (hp : solvent p) (h : complete_backstop_withdrawal p u now = .ok (p', amt)) :
    solvent p' ∧ p'.auctions = p.auctions := by
  unfold complete_backstop_withdrawal at h
  simp only [] at h
  split at h
  · exact Except.noConfusion h
  split at h
  · exact Except.noConfusion h
  split at h
  · exact Except.noConfusion h
  injection h with h4
  injection h4 with h5 h6
  subst h5
  exact ⟨hp, rfl⟩

/-- Rewriting the Active auction of one pair in place preserves pairwise
uniqueness of Active auctions, provided the rewrite keeps the auction's
(borrower, collateral-asset) identity. -/
theorem pairwise_updateAuction {l : List Auction} {b c : String} {f : Auction → Auction}
    (hf : ∀ x, (f x).borrower = x.borrower ∧ (f x).collateralAsset = x.collateralAsset)
    (hl : l.Pairwise auctionDistinct) :
    (updateAuction l b c f).Pairwise auctionDistinct := by
  unfold updateAuction
  have key : ∀ x : Auction,
      ((if x.borrower = b ∧ x.collateralAsset = c ∧ x.status = AuctionStatus.Active
        then f x else x).borrower = x.borrower) ∧
      ((if x.borrower = b ∧ x.collateralAsset = c ∧ x.status = AuctionStatus.Active
        then f x else x).collateralAsset = x.collateralAsset) ∧
      ((if x.borrower = b ∧ x.collateralAsset = c ∧ x.status = AuctionStatus.Active
        then f x else x).status = AuctionStatus.Active → x.status = AuctionStatus.Active) := by
    intro x
    by_cases hx : x.borrower = b ∧ x.collateralAsset = c ∧ x.status = AuctionStatus.Active
    · simp only [if_pos hx]
      exact ⟨(hf x).1, (hf x).2, fun _ => hx.2.2⟩
    · simp [if_neg hx]
  refine List.Pairwise.map _ (fun a1 a2 h12 => ?_) hl
  intro hs1 hs2 hb hc
  exact h12 ((key a1).2.2 hs1) ((key a2).2.2 hs2)
    (((key a1).1).symm.trans (hb.trans (key a2).1))
    (((key a1).2.1).symm.trans (hc.trans (key a2).2.1))

theorem inv_initiate_liquidation {p p' : Pool} {b c : String} {pct now : Nat}
    {o : OracleState} (hp : Inv p)
    (h : initiate_liquidation p b c pct now o = .ok p') : Inv p' := by
  unfold initiate_liquidation at h
  split at h
  · exact Except.noConfusion h
  split at h
  · exact Except.noConfusion h
  split at h
  · exact Except.noConfusion h
  rename_i hpct1 hpct2 hact
  simp only [] at h
  split at h
  · exact Except.noConfusion h
  · exact Except.noConfusion h
  injection h with h4
  subst h4
  constructor
  · intro e he
    exact accrueDebtReserve_solvent hp.1 _ he
  · show List.Pairwise auctionDistinct
      ((accrueDebtReserve p (getPosition p b) now).auctions ++ _)
    rw [accrueDebtReserve_auctions]
    refine List.pairwise_append.mpr ⟨hp.2, List.pairwise_singleton _ _, ?_⟩
    intro x hx y hy
    simp only [List.mem_singleton] at hy
    subst hy
    intro hsx hsy hbx hcx
    unfold hasActiveAuction at hact
    rw [Bool.not_eq_true] at hact
    have hne := List.any_eq_false.mp hact x hx
    simp only [decide_eq_true_eq] at hne
    exact hne ⟨hbx, hcx, hsx⟩

theorem inv_fill_auction {p p' : Pool} {b c : String} {pct now : Nat}
    {o : OracleState} (hp : Inv p)
    (h : fill_auction p b c pct now o = .ok p') : Inv p' := by
  unfold fill_auction at h
  split at h
  · exact Except.noConfusion h
  rename_i a hfind
  split at h
  · -- expiry transition: auctions rewritten in place, reserves untouched
    injection h with h4
    subst h4
    refine ⟨hp.1, ?_⟩
    refine pairwise_updateAuction ?_ hp.2
    intro x
    exact ⟨rfl, rfl⟩
  split at h
  · exact Except.noConfusion h
  split at h
  · exact Except.noConfusion h
  simp only [] at h
  split at h
  · exact Except.noConfusion h
  rename_i da hda
  split at h
  · exact Except.noConfusion h
  rename_i r0 heq
  split at h
  · exact Except.noConfusion h
  · -- self-cure branch: a second in-place status rewrite
    injection h with h4
    subst h4
    constructor
    · intro e he
      rcases mem_aupdate he with rfl | hm
      · have hb : r0.totalBorrowed ≤ r0.totalDeposited := hp.1 _ (alookup_mem heq)
        show (accrue r0 p.backstopTakeRate now).totalBorrowed - _ - _ ≤
          (accrue r0 p.backstopTakeRate now).totalDeposited
        rw [accrue_totalBorrowed, accrue_totalDeposited]
        exact Nat.le_trans (Nat.sub_le _ _) (Nat.le_trans (Nat.sub_le _ _) hb)
      · exact hp.1 _ hm
    · refine pairwise_updateAuction ?_ (pairwise_updateAuction ?_ hp.2) <;>
        exact fun x => ⟨rfl, rfl⟩
  · injection h with h4
    subst h4
    constructor
    · intro e he
      rcases mem_aupdate he with rfl | hm
      · have hb : r0.totalBorrowed ≤ r0.totalDeposited := hp.1 _ (alookup_mem heq)
        show (accrue r0 p.backstopTakeRate now).totalBorrowed - _ - _ ≤
          (accrue r0 p.backstopTakeRate now).totalDeposited
        rw [accrue_totalBorrowed, accrue_totalDeposited]
        exact Nat.le_trans (Nat.sub_le _ _) (Nat.le_trans (Nat.sub_le _ _) hb)
      · exact hp.1 _ hm
    · refine pairwise_updateAuction ?_ hp.2
      exact fun x => ⟨rfl, rfl⟩

theorem auctionsOk_of_eq {p p' : Pool} (h : p'.auctions = p.auctions)
    (hp : auctionsOk p) : auctionsOk p' := by
  unfold auctionsOk
  rw [h]
  exact hp

theorem map_fst_ok {α β γ : Type} {x : Except γ (α × β)} {a : α}
    (h : x.map Prod.fst = .ok a) : ∃ b, x = .ok (a, b) := by
  cases x with
  | error e => exact Except.noConfusion h
  | ok v =>
    obtain ⟨v1, v2⟩ := v
    injection h with h1
    exact ⟨v2, by subst h1; rfl⟩

/-- Every successful entry-point execution preserves the pool invariant. -/
theorem inv_exec {p p' : Pool} (op : Op) (hp : Inv p) (hs : exec p op = .ok p') :
    Inv p' := by
  cases op with
  | deposit u a amt now =>
    obtain ⟨sh, hd⟩ := map_fst_ok hs
    obtain ⟨h1, h2⟩ := solvent_deposit hp.1 hd
    exact ⟨h1, auctionsOk_of_eq h2 hp.2⟩
  | withdraw u a s now =>
    obtain ⟨amt, hd⟩ := map_fst_ok hs
    obtain ⟨h1, h2⟩ := solvent_withdraw hp.1 hd
    exact ⟨h1, auctionsOk_of_eq h2 hp.2⟩
  | add_collateral u t amt =>
    obtain ⟨h1, h2⟩ := solvent_add_collateral hp.1 hs
    exact ⟨h1, auctionsOk_of_eq h2 hp.2⟩
  | remove_collateral u t amt now o =>
    obtain ⟨h1, h2⟩ := solvent_remove_collateral hp.1 hs
    exact ⟨h1, auctionsOk_of_eq h2 hp.2⟩
  | borrow u a amt now o =>
    obtain ⟨h1, h2⟩ := solvent_borrow hp.1 hs
    exact ⟨h1, auctionsOk_of_eq h2 hp.2⟩
  | repay u a s now =>
    obtain ⟨amt, hd⟩ := map_fst_ok hs
    obtain ⟨h1, h2⟩ := solvent_repay hp.1 hd
    exact ⟨h1, auctionsOk_of_eq h2 hp.2⟩
  | initiate_liquidation b c pct now o =>
    exact inv_initiate_liquidation hp hs
  | fill_auction b c pct now o =>
    exact inv_fill_auction hp hs
  | backstop_deposit u amt =>
    obtain ⟨h1, h2⟩ := solvent_backstop_deposit hp.1 hs
    exact ⟨h1, auctionsOk_of_eq h2 hp.2⟩
  | initiate_backstop_withdrawal u amt now =>
    obtain ⟨h1, h2⟩ := solvent_initiate_backstop_withdrawal hp.1 hs
    exact ⟨h1, auctionsOk_of_eq h2 hp.2⟩
  | complete_backstop_withdrawal u now =>
    obtain ⟨amt, hd⟩ := map_fst_ok hs
    obtain ⟨h1, h2⟩ := solvent_complete_backstop_withdrawal hp.1 hd
    exact ⟨h1, auctionsOk_of_eq h2 hp.2⟩

/-- The pool invariant holds in every reachable state. -/
theorem inv_reachable {p : Pool} (h : Reachable p) : Inv p := by
  induction h with
  | init cfg => exact inv_initPool cfg
  | step op h hs ih => exact inv_exec op ih hs

/-! ## Rate-trajectory and round-trip lemmas -/

theorem scanl_eq_cons {α β : Type} (f : β → α → β) (b : β) (l : List α) :
    ∃ rest, List.scanl f b l = b :: rest := by
  cases l <;> exact ⟨_, rfl⟩

/-- A step function that never decreases an observable yields a
non-decreasing trajectory of that observable along `scanl`. -/
theorem chain_le_map_scanl {α β : Type} (f : β → α → β) (g : β → Nat)
    (hstep : ∀ s t, g s ≤ g (f s t)) (b : β) (l : List α) :
    ((List.scanl f b l).map g).Chain' (· ≤ ·) := by
  induction l generalizing b with
  | nil => simp
  | cons t ts ih =>
    rw [List.scanl_cons, List.singleton_append]
    obtain ⟨rest, hrest⟩ := scanl_eq_cons f (f b t) ts
    rw [hrest, List.map_cons, List.map_cons]
    exact List.Chain'.cons (hstep b t)
      (by rw [← List.map_cons, ← hrest]; exact ih (f b t))

/-- Depositing `X` and then immediately (same timestamp, so zero elapsed
accrual) withdrawing all minted bTokens never returns more than `X`. -/
theorem deposit_withdraw_round_trip {p p1 p2 : Pool} {u a : String}
    {X now shares underlying : Nat}
    (h1 : deposit p u a X now = .ok (p1, shares))
    (h2 : withdraw p1 u a shares now = .ok (p2, underlying)) :
    underlying ≤ X := by
  unfold deposit at h1
  split at h1
  · exact Except.noConfusion h1
  split at h1
  · exact Except.noConfusion h1
  rename_i r0 heq
  simp only [] at h1
  injection h1 with h1'
  injection h1' with hp1 hsh
  subst hp1
  subst hsh
  unfold withdraw at h2
  split at h2
  · exact Except.noConfusion h2
  split at h2 <;> rename_i hlook
  · exact Except.noConfusion h2
  rename_i r1
  simp only [alookup_aupdate_self] at hlook
  injection hlook with hr1
  subst hr1
  simp only [] at h2
  split at h2
  · exact Except.noConfusion h2
  split at h2
  · exact Except.noConfusion h2
  split at h2
  · exact Except.noConfusion h2
  injection h2 with h2'
  injection h2' with hp2 hund
  subst hund
  have hrate : (accrue { accrue r0 p.backstopTakeRate now with
      totalDeposited := (accrue r0 p.backstopTakeRate now).totalDeposited + X }
      p.backstopTakeRate now).bTokenRate =
      (accrue r0 p.backstopTakeRate now).bTokenRate :=
    accrue_bTokenRate_self _ _ _ rfl
  rw [hrate]
  exact toUnderlying_toShares_le X _

/-! ## Operation guard characterizations -/

/-- A successful withdrawal implies the solvency guard held: the paid-out
underlying leaves `totalDeposited - underlying ≥ totalBorrowed` on the
accrued reserve. -/
theorem withdraw_guard {p p' : Pool} {u a : String} {s now amt : Nat}
    {r0 : ReserveState} (heq : alookup p.reserves a = some r0)
    (h : withdraw p u a s now = .ok (p', amt)) :
    amt = toUnderlyingDown s (accrue r0 p.backstopTakeRate now).bTokenRate ∧
    amt ≤ r0.totalDeposited ∧ r0.totalBorrowed ≤ r0.totalDeposited - amt := by
  unfold withdraw at h
  split at h
  · exact Except.noConfusion h
  split at h
  · exact Except.noConfusion h
  rename_i r0x heqx
  have hr : r0x = r0 := by
    have h3 := heq.symm.trans heqx
    injection h3 with h3
    exact h3.symm
  subst hr
  simp only [] at h
  split at h
  · exact Except.noConfusion h
  split at h
  · exact Except.noConfusion h
  split at h
  · exact Except.noConfusion h
  rename_i hheld htd htb
  injection h with h'
  injection h' with hp' hamt
  subst hamt
  simp only [accrue_totalDeposited, accrue_totalBorrowed] at htd htb
  exact ⟨rfl, by omega, by omega⟩

/-- A successful borrow implies the liquidity guard held:
`totalBorrowed + amount ≤ totalDeposited` on the reserve. -/
theorem borrow_guard {p p' : Pool} {u a : String} {amt now : Nat}
    {o : OracleState} {r0 : ReserveState} (heq : alookup p.reserves a = some r0)
    (h : borrow p u a amt now o = .ok p') :
    r0.totalBorrowed + amt ≤ r0.totalDeposited := by
  unfold borrow at h
  split at h
  · exact Except.noConfusion h
  split at h
  · exact Except.noConfusion h
  rename_i r0x heqx
  have hr : r0x = r0 := by
    have h3 := heq.symm.trans heqx
    injection h3 with h3
    exact h3.symm
  subst hr
  split at h
  · exact Except.noConfusion h
  simp only [] at h
  split at h
  · exact Except.noConfusion h
  split at h
  · exact Except.noConfusion h
  rename_i hdebt hliq
  split at h
  · exact Except.noConfusion h
  · exact Except.noConfusion h
  simp only [accrue_totalDeposited, accrue_totalBorrowed] at hliq
  omega

/-- A successful liquidation initiation implies all of its guards held:
percent in (0, 10000], no prior Active auction for the pair, and an
unhealthy position valued at fresh prices. -/
theorem initiate_liquidation_guard {p p' : Pool} {b c : String} {pct now : Nat}
    {o : OracleState} (h : initiate_liquidation p b c pct now o = .ok p') :
    0 < pct ∧ pct ≤ BPS ∧ hasActiveAuction p.auctions b c = false ∧
    isHealthy (accrueDebtReserve p (getPosition p b) now) o (getPosition p b) =
      .ok false := by
  unfold initiate_liquidation at h
  split at h
  · exact Except.noConfusion h
  split at h
  · exact Except.noConfusion h
  split at h
  · exact Except.noConfusion h
  rename_i hpct1 hpct2 hact
  simp only [] at h
  split at h
  · exact Except.noConfusion h
  · exact Except.noConfusion h
  rename_i hunhealthy
  exact ⟨Nat.pos_of_ne_zero hpct1, Nat.le_of_not_lt hpct2,
    Bool.not_eq_true _ ▸ hact, hunhealthy⟩

/-! ## Backstop withdrawal characterizations -/

/-- A successful withdrawal initiation queues exactly one pending
withdrawal, unlocking 21 days after `now`. -/
theorem initiate_backstop_withdrawal_pending {p p' : Pool} {u : String}
    {amt now : Nat} (h : initiate_backstop_withdrawal p u amt now = .ok p') :
    ∃ acct, alookup p.backstop.accounts u = some acct ∧ acct.pending = none ∧
      alookup p'.backstop.accounts u =
        some { acct with pending := some (amt, now + BACKSTOP_LOCK) } := by
  unfold initiate_backstop_withdrawal at h
  split at h
  · exact Except.noConfusion h
  simp only [] at h
  split at h
  · exact Except.noConfusion h
  rename_i acct heq
  split at h
  · exact Except.noConfusion h
  split at h
  · exact Except.noConfusion h
  rename_i hshares hpend
  injection h with h4
  subst h4
  refine ⟨acct, heq, ?_, ?_⟩
  · cases hp : acct.pending with
    | none => rfl
    | some v => rw [hp] at hpend; exact absurd rfl hpend
  · exact alookup_aupdate_self _ _ _

/-- Completing a backstop withdrawal succeeds exactly when a pending
withdrawal exists and its unlock time has been reached. -/
theorem complete_backstop_withdrawal_ok_iff (p : Pool) (u : String) (now : Nat) :
    (∃ pr, complete_backstop_withdrawal p u now = .ok pr) ↔
    (∃ acct amt unlock, alookup p.backstop.accounts u = some acct ∧
      acct.pending = some (amt, unlock) ∧ unlock ≤ now) := by
  constructor
  · rintro ⟨pr, h⟩
    unfold complete_backstop_withdrawal at h
    simp only [] at h
    split at h
    · exact Except.noConfusion h
    rename_i acct heq
    split at h
    · exact Except.noConfusion h
    rename_i amt unlock hpend
    split at h
    · exact Except.noConfusion h
    rename_i hlock
    exact ⟨acct, amt, unlock, heq, hpend, Nat.le_of_not_lt hlock⟩
  · rintro ⟨acct, amt, unlock, heq, hpend, hle⟩
    cases hres : complete_backstop_withdrawal p u now with
    | ok pr => exact ⟨pr, rfl⟩
    | error e =>
      exfalso
      simp only [complete_backstop_withdrawal, heq, hpend] at hres
      rw [if_neg (Nat.not_lt_of_le hle)] at hres
      exact Except.noConfusion hres

/-- On success, completing a backstop withdrawal burns the queued shares
and pays out underlying at the current backstop exchange rate. -/
theorem complete_backstop_withdrawal_effect {p p' : Pool} {u : String}
    {now ret : Nat} {acct : BackstopAccount} {amtq unlock : Nat}
    (hacct : alookup p.backstop.accounts u = some acct)
    (hpend : acct.pending = some (amtq, unlock))
    (h : complete_backstop_withdrawal p u now = .ok (p', ret)) :
    unlock ≤ now ∧
    p'.backstop.accounts = aupdate p.backstop.accounts u
      { shares := acct.shares - min amtq acct.shares, pending := none } ∧
    p'.backstop.totalShares = p.backstop.totalShares - min amtq acct.shares ∧
    p'.backstop.totalUnderlying = p.backstop.totalUnderlying - ret ∧
    ret = (if p.backstop.totalShares = 0 then 0
           else min amtq acct.shares * p.backstop.totalUnderlying / p.backstop.totalShares) := by
  unfold complete_backstop_withdrawal at h
  simp only [hacct, hpend] at h
  split at h
  · exact Except.noConfusion h
  rename_i hlock
  injection h with h4
  injection h4 with h5 h6
  subst h5
  subst h6
  exact ⟨Nat.le_of_not_lt hlock, rfl, rfl, rfl, rfl⟩

/-- With no pending withdrawal (or no account at all), completion fails. -/
theorem complete_backstop_withdrawal_no_pending {p : Pool} {u : String} {now : Nat}
    (h : ∀ acct, alookup p.backstop.accounts u = some acct → acct.pending = none) :
    complete_backstop_withdrawal p u now = .error Err.NoPendingWithdrawal := by
  cases heq : alookup p.backstop.accounts u with
  | none => simp only [complete_backstop_withdrawal, heq]
  | some acct => simp only [complete_backstop_withdrawal, heq, h acct heq]

/-- Before the unlock time, completion fails with a time-gate error. -/
theorem complete_backstop_withdrawal_locked {p : Pool} {u : String}
    {now : Nat} {acct : BackstopAccount} {amtq unlock : Nat}
    (hacct : alookup p.backstop.accounts u = some acct)
    (hpend : acct.pending = some (amtq, unlock)) (hlt : now < unlock) :
    complete_backstop_withdrawal p u now = .error Err.TimeLocked := by
  simp only [complete_backstop_withdrawal, hacct, hpend]
  rw [if_pos hlt]

/-! ## Fail-closed oracle lemmas -/

theorem except_bind_ok {ε α β : Type} (a : α) (f : α → Except ε β) :
    ((Except.ok a : Except ε α) >>= f) = f a := rfl

theorem except_bind_error {ε α β : Type} (e : ε) (f : α → Except ε β) :
    ((Except.error e : Except ε α) >>= f) = Except.error e := rfl

/-- A health check that returns at all (rather than failing closed)
guarantees the debt asset had a present, strictly positive oracle price. -/
theorem isHealthy_ok_price {p : Pool} {o : OracleState} {pos : Position}
    {b : Bool} {a : String} (hok : isHealthy p o pos = .ok b)
    (hda : pos.debtAsset = some a) :
    ∃ r pd, alookup p.reserves a = some r ∧
      lastprice o (Asset.Other a) = some pd ∧ 0 < pd.price := by
  unfold isHealthy at hok
  cases hc : collateralValue p o pos with
  | error e => rw [hc, except_bind_error] at hok; exact Except.noConfusion hok
  | ok c =>
    rw [hc, except_bind_ok] at hok
    unfold debtValue at hok
    simp only [hda] at hok
    cases hr : alookup p.reserves a with
    | none =>
      rw [hr] at hok
      exact Except.noConfusion hok
    | some r =>
      rw [hr] at hok
      simp only [] at hok
      unfold requirePrice at hok
      cases hq : lastprice o (Asset.Other a) with
      | none =>
        rw [hq] at hok
        exact Except.noConfusion hok
      | some pd =>
        rw [hq] at hok
        simp only [] at hok
        by_cases hle : pd.price ≤ 0
        · rw [if_pos hle] at hok
          exact Except.noConfusion hok
        · exact ⟨r, pd, rfl, rfl, by omega⟩

/-- Modelled from the spec: a borrow never succeeds when the oracle has no
price (or only a non-positive price) for the debt asset — the operation
fails closed, and in the all-or-nothing execution model an error leaves
the pool state unchanged. -/
theorem borrow_fails_without_price {p p' : Pool} {u a : String} {amt now : Nat}
    {o : OracleState}
    (hprice : lastprice o (Asset.Other a) = none ∨
      ∃ pd, lastprice o (Asset.Other a) = some pd ∧ pd.price ≤ 0) :
    borrow p u a amt now o ≠ .ok p' := by
  intro h
  unfold borrow at h
  split at h
  · exact Except.noConfusion h
  split at h
  · exact Except.noConfusion h
  split at h
  · exact Except.noConfusion h
  simp only [] at h
  split at h
  · exact Except.noConfusion h
  split at h
  · exact Except.noConfusion h
  split at h <;> rename_i hhealthy
  · exact Except.noConfusion h
  · exact Except.noConfusion h
  obtain ⟨r, pd, _, hq, hpos⟩ := isHealthy_ok_price hhealthy rfl
  rcases hprice with hn | ⟨pd', hs, hle⟩
  · rw [hn] at hq
    exact Option.noConfusion hq
  · rw [hs] at hq
    injection hq with hq
    subst hq
    omega

/-- Modelled from the spec: the oracle cannot serve a usable price for an
asset — either it has no record at all, or it only reports a non-positive
(in particular zero) price. -/
def priceUnavailable (o : OracleState) (sym : String) : Prop :=
  lastprice o (Asset.Other sym) = none ∨
  ∃ pd, lastprice o (Asset.Other sym) = some pd ∧ pd.price ≤ 0

/-- An unavailable price contradicts a present strictly positive price. -/
theorem priceUnavailable_not_pos {o : OracleState} {sym : String}
    (h : priceUnavailable o sym)
    (hp : ∃ pd, lastprice o (Asset.Other sym) = some pd ∧ 0 < pd.price) :
    False := by
  obtain ⟨pd, hq, hpos⟩ := hp
  rcases h with hn | ⟨pd', hs, hle⟩
  · rw [hn] at hq
    exact Option.noConfusion hq
  · rw [hs] at hq
    injection hq with hq
    subst hq
    omega

/-- A successful fail-closed price lookup means the oracle had a present,
strictly positive price. -/
theorem requirePrice_ok {o : OracleState} {sym : String} {v : Nat}
    (h : requirePrice o sym = .ok v) :
    ∃ pd, lastprice o (Asset.Other sym) = some pd ∧ 0 < pd.price := by
  unfold requirePrice at h
  cases hq : lastprice o (Asset.Other sym) with
  | none =>
    rw [hq] at h
    exact Except.noConfusion h
  | some pd =>
    rw [hq] at h
    simp only [] at h
    split at h
    · exact Except.noConfusion h
    · rename_i hle
      exact ⟨pd, rfl, by omega⟩

/-- A collateral valuation that returns at all guarantees every collateral
asset in the list had a present, strictly positive oracle price. -/
theorem collateralValueList_ok_price {p : Pool} {o : OracleState} :
    ∀ {l : List (String × Nat)} {v : Nat}, collateralValueList p o l = .ok v →
    ∀ e ∈ l, ∃ pd, lastprice o (Asset.Other e.1) = some pd ∧ 0 < pd.price := by
  intro l
  induction l with
  | nil =>
    intro v h e he
    simp at he
  | cons hd tl ih =>
    intro v h e he
    obtain ⟨sym, amt⟩ := hd
    unfold collateralValueList at h
    cases hp : requirePrice o sym with
    | error e1 =>
      rw [hp, except_bind_error] at h
      exact Except.noConfusion h
    | ok price =>
      rw [hp, except_bind_ok] at h
      simp only [] at h
      cases hr : collateralValueList p o tl with
      | error e2 =>
        rw [hr, except_bind_error] at h
        exact Except.noConfusion h
      | ok restV =>
        rcases List.mem_cons.mp he with rfl | hm
        · exact requirePrice_ok hp
        · exact ih hr e hm

/-- A health check that returns at all guarantees every collateral asset
of the position had a present, strictly positive oracle price. -/
theorem isHealthy_ok_collateral_price {p : Pool} {o : OracleState}
    {pos : Position} {b : Bool} (hok : isHealthy p o pos = .ok b) :
    ∀ e ∈ pos.collateral,
      ∃ pd, lastprice o (Asset.Other e.1) = some pd ∧ 0 < pd.price := by
  unfold isHealthy at hok
  cases hc : collateralValue p o pos with
  | error e1 =>
    rw [hc, except_bind_error] at hok
    exact Except.noConfusion hok
  | ok c =>
    unfold collateralValue at hc
    exact collateralValueList_ok_price hc

theorem mem_aupdate_self {κ α : Type} [DecidableEq κ] (l : List (κ × α))
    (k : κ) (v : α) : (k, v) ∈ aupdate l k v := by
  induction l with
  | nil => simp [aupdate]
  | cons hd t ih =>
    obtain ⟨k', v'⟩ := hd
    by_cases hk : k' = k
    · simp [aupdate, hk]
    · simp only [aupdate, if_neg hk]
      exact List.mem_cons_of_mem _ ih

theorem mem_aupdate_of_ne {κ α : Type} [DecidableEq κ] {l : List (κ × α)}
    {e : κ × α} {k : κ} {v : α} (he : e ∈ l) (hne : e.1 ≠ k) :
    e ∈ aupdate l k v := by
  induction l with
  | nil => simp at he
  | cons hd t ih =>
    obtain ⟨k', v'⟩ := hd
    rcases List.mem_cons.mp he with rfl | hm
    · simp only [aupdate, if_neg hne]
      exact List.mem_cons_self _ _
    · by_cases hk : k' = k
      · simp only [aupdate, if_pos hk]
        exact List.mem_cons_of_mem _ hm
      · simp only [aupdate, if_neg hk]
        exact List.mem_cons_of_mem _ (ih hm)

/-- Modelled from the spec: a borrow never succeeds when the oracle cannot
price one of the borrower's collateral assets — the post-borrow health
check fails closed. -/
theorem borrow_fails_without_collateral_price {p p' : Pool} {u a sym : String}
    {amtc amt now : Nat} {o : OracleState}
    (hmem : (sym, amtc) ∈ (getPosition p u).collateral)
    (hprice : priceUnavailable o sym) :
    borrow p u a amt now o ≠ .ok p' := by
  intro h
  unfold borrow at h
  split at h
  · exact Except.noConfusion h
  split at h
  · exact Except.noConfusion h
  split at h
  · exact Except.noConfusion h
  simp only [] at h
  split at h
  · exact Except.noConfusion h
  split at h
  · exact Except.noConfusion h
  split at h <;> rename_i hhealthy
  · exact Except.noConfusion h
  · exact Except.noConfusion h
  exact priceUnavailable_not_pos hprice
    (isHealthy_ok_collateral_price hhealthy (sym, amtc) hmem)

/-- Modelled from the spec: collateral removal never succeeds when the
oracle cannot price the borrower's open debt asset — the post-removal
health check fails closed. -/
theorem remove_collateral_fails_without_debt_price {p p' : Pool}
    {u t da : String} {amt now : Nat} {o : OracleState}
    (hda : (getPosition p u).debtAsset = some da)
    (hprice : priceUnavailable o da) :
    remove_collateral p u t amt now o ≠ .ok p' := by
  intro h
  unfold remove_collateral at h
  split at h
  · exact Except.noConfusion h
  simp only [] at h
  split at h
  · exact Except.noConfusion h
  split at h <;> rename_i hhealthy
  · exact Except.noConfusion h
  · exact Except.noConfusion h
  obtain ⟨r, pd, _, hq, hpos⟩ := isHealthy_ok_price hhealthy hda
  exact priceUnavailable_not_pos hprice ⟨pd, hq, hpos⟩

/-- Modelled from the spec: collateral removal never succeeds when the
oracle cannot price one of the position's collateral assets (the removed
token itself included) — the post-removal health check fails closed. -/
theorem remove_collateral_fails_without_collateral_price {p p' : Pool}
    {u t sym : String} {amtc amt now : Nat} {o : OracleState}
    (hmem : (sym, amtc) ∈ (getPosition p u).collateral)
    (hprice : priceUnavailable o sym) :
    remove_collateral p u t amt now o ≠ .ok p' := by
  intro h
  unfold remove_collateral at h
  split at h
  · exact Except.noConfusion h
  simp only [] at h
  split at h
  · exact Except.noConfusion h
  split at h <;> rename_i hhealthy
  · exact Except.noConfusion h
  · exact Except.noConfusion h
  have hall := isHealthy_ok_collateral_price hhealthy
  by_cases hst : sym = t
  · subst hst
    exact priceUnavailable_not_pos hprice (hall _ (mem_aupdate_self _ _ _))
  · exact priceUnavailable_not_pos hprice
      (hall (sym, amtc) (mem_aupdate_of_ne hmem hst))

/-- Modelled from the spec: liquidation initiation never succeeds when the
oracle cannot price the borrower's open debt asset — the health valuation
fails closed instead of treating the position as unhealthy. -/
theorem initiate_liquidation_fails_without_debt_price {p p' : Pool}
    {b c da : String} {pct now : Nat} {o : OracleState}
    (hda : (getPosition p b).debtAsset = some da)
    (hprice : priceUnavailable o da) :
    initiate_liquidation p b c pct now o ≠ .ok p' := by
  intro h
  unfold initiate_liquidation at h
  split at h
  · exact Except.noConfusion h
  split at h
  · exact Except.noConfusion h
  split at h
  · exact Except.noConfusion h
  simp only [] at h
  split at h <;> rename_i hhealthy
  · exact Except.noConfusion h
  · exact Except.noConfusion h
  obtain ⟨r, pd, _, hq, hpos⟩ := isHealthy_ok_price hhealthy hda
  exact priceUnavailable_not_pos hprice ⟨pd, hq, hpos⟩

/-- Modelled from the spec: liquidation initiation never succeeds when the
oracle cannot price one of the borrower's collateral assets — the health
valuation fails closed. -/
theorem initiate_liquidation_fails_without_collateral_price {p p' : Pool}
    {b c sym : String} {amtc pct now : Nat} {o : OracleState}
    (hmem : (sym, amtc) ∈ (getPosition p b).collateral)
    (hprice : priceUnavailable o sym) :
    initiate_liquidation p b c pct now o ≠ .ok p' := by
  intro h
  unfold initiate_liquidation at h
  split at h
  · exact Except.noConfusion h
  split at h
  · exact Except.noConfusion h
  split at h
  · exact Except.noConfusion h
  simp only [] at h
  split at h <;> rename_i hhealthy
  · exact Except.noConfusion h
  · exact Except.noConfusion h
  exact priceUnavailable_not_pos hprice
    (isHealthy_ok_collateral_price hhealthy (sym, amtc) hmem)

/-- Modelled from the spec: filling a live (non-expired) auction never
succeeds when the oracle cannot price the auctioned collateral asset —
the liquidation valuation (the post-fill health check) fails closed. -/
theorem fill_auction_fails_without_price {p p' : Pool} {b c : String}
    {pct now : Nat} {o : OracleState} {a : Auction}
    (hfind : p.auctions.find? (fun x =>
      decide (x.borrower = b ∧ x.collateralAsset = c ∧
        x.status = AuctionStatus.Active)) = some a)
    (hnotexp : ¬ (a.start + AUCTION_DURATION < now))
    (hprice : priceUnavailable o c) :
    fill_auction p b c pct now o ≠ .ok p' := by
  intro h
  unfold fill_auction at h
  split at h
  · exact Except.noConfusion h
  rename_i a' heqf
  have ha : a' = a := by
    have h3 := hfind.symm.trans heqf
    injection h3 with h3
    exact h3.symm
  subst ha
  split at h <;> rename_i hexp
  · exact absurd hexp hnotexp
  split at h
  · exact Except.noConfusion h
  split at h
  · exact Except.noConfusion h
  simp only [] at h
  split at h
  · exact Except.noConfusion h
  split at h
  · exact Except.noConfusion h
  split at h <;> rename_i hhealthy
  · exact Except.noConfusion h
  all_goals
    exact priceUnavailable_not_pos hprice
      (isHealthy_ok_collateral_price hhealthy _ (mem_aupdate_self _ _ _))

/-! ## Off-chain pipeline: shared types and Finnhub adapter
(packages/shared/src/index.ts, apps/ingestor/src/providers/finnhub.adapter.ts) -/

/-- Normalized price data from any provider, from
packages/shared/src/index.ts.  JavaScript `number` values are modelled as
rationals (IEEE doubles carry fractional dollar amounts such as 178.23). -/
structure NormalizedStockPrice where
  source : String
  symbol : String
  price : Rat
  timestamp : Nat
deriving DecidableEq

/-- A JavaScript number is a fixed-point integer value exactly when its
rational value has denominator 1 (no fractional part). -/
def isIntegerValued (q : Rat) : Prop := q.den = 1

/-- The Finnhub `/quote` HTTP response as seen by the adapter: the fetch
`ok` flag and `statusText`, and the JSON body's `c` field (current price),
absent when the response carries no quote. -/
structure FinnhubResponse where
  ok : Bool
  statusText : String
  c : Option Rat
deriving DecidableEq

/-- Function `FinnhubAdapter.getLatestPrice` from
apps/ingestor/src/providers/finnhub.adapter.ts: throws on a non-ok HTTP
response; throws when `!data.c || data.c === 0` (missing or zero quote);
otherwise returns the normalized price with the raw quote and the current
time (`Date.now()`), never a default or zero price. -/
def FinnhubAdapter.getLatestPrice (symbol : String) (resp : FinnhubResponse)
    (now : Nat) : Except String NormalizedStockPrice :=
  if resp.ok = false then
    .error ("Finnhub API error: " ++ resp.statusText)
  else
    match resp.c with
    | none => .error ("No se encontró precio real para el símbolo: " ++ symbol)
    | some c =>
      if c = 0 then
        .error ("No se encontró precio real para el símbolo: " ++ symbol)
      else
        .ok { source := "Finnhub", symbol := symbol.toUpper, price := c,
              timestamp := now }

/-! ## Off-chain pipeline: Soroban publisher (src/publisher.ts) -/

/-- Interface `PublishParams` from src/publisher.ts — note `price` is a JavaScript
`number` (modelled as a rational), not a bigint. -/
structure PublishParams where
  assetId : String
  price : Rat
  timestamp : Nat
  commit : String
  proof : Option String
  proofPublicInputs : Option String
deriving DecidableEq

/-- Interface `PublishResult` from src/publisher.ts. -/
structure PublishResult where
  txHash : String
  success : Bool
deriving DecidableEq

/-- The retry wrapper `SorobanPublisher.retry` from src/publisher.ts: try
the call; on failure retry up to the given number of additional attempts
(the body is effect-free here, so each attempt yields the same outcome). -/
def retryCall {α : Type} (f : Except String α) : Nat → Except String α
  | 0 => f
  | n + 1 =>
    match f with
    | .ok a => .ok a
    | .error _ => retryCall f n

/-- The body of `SorobanPublisher.publishToOracle` (src/publisher.ts lines
110–147): it only logs the parameters (console output is not modelled) and
returns a mock transaction hash of 64 zeros with `success: true`.  The
transaction construction/signing/submission code is commented out, so the
returned list of submitted transactions — the second component — is empty
for every input, with or without a ZK proof. -/
def SorobanPublisher.publishBody (params : PublishParams) :
    Except String (PublishResult × List String) :=
  .ok ({ txHash := String.mk (List.replicate 64 '0'), success := true }, [])

/-- Method `SorobanPublisher.publishToOracle`: the body behind the retry wrapper
(`maxRetries = 3`). -/
def SorobanPublisher.publishToOracle (params : PublishParams) :
    Except String (PublishResult × List String) :=
  retryCall (SorobanPublisher.publishBody params) 3

/-! ## Off-chain pipeline: Redis storage service
(StorageService of the aggregator app) -/

/-- The aggregated price record persisted by the storage service (fields
beyond those used by storage keys/scores are carried opaquely). -/
structure AggregatedPrice where
  symbol : String
  price : Rat
  confidence : Nat
  computedAt : Nat
deriving DecidableEq

/-- The slice of Redis state the storage service touches: latest-price
STRING keys, history ZSETs (score, entry), and the symbols SET.
Serialization (`JSON.stringify`/`JSON.parse`) is modelled as the identity
round-trip, so entries are stored as values. -/
structure RedisState where
  kv : List (String × AggregatedPrice)
  zsets : List (String × List (Nat × AggregatedPrice))
  sets : List (String × List String)
deriving DecidableEq

/-- The Nest `ConfigService` as a key-value environment. -/
structure ConfigMap where
  entries : List (String × String)

/-- Lookup `configService.get` — `none` when the variable is unset. -/
def ConfigMap.get (cfg : ConfigMap) (k : String) : Option String :=
  alookup cfg.entries k

/-- Interface `ResolvedStorageOptions` (the source field `keyPrefix` is called
`keyPref` in this development). -/
structure ResolvedStorageOptions where
  redisUrl : String
  priceTtlSeconds : Nat
  historyMaxEntries : Nat
  keyPref : String
deriving DecidableEq

/-- Method `StorageService.resolveOptions`: reads `REDIS_URL` (defaulting to the
empty string), TTL, history bound and key-prefix settings. -/
def resolveOptions (cfg : ConfigMap) : ResolvedStorageOptions :=
  { redisUrl := (cfg.get "REDIS_URL").getD "",
    priceTtlSeconds := (((cfg.get "REDIS_PRICE_TTL_SECONDS").getD "300").toNat?).getD 0,
    historyMaxEntries := (((cfg.get "REDIS_HISTORY_MAX_ENTRIES").getD "100").toNat?).getD 0,
    keyPref := (cfg.get "REDIS_KEY_PREFIX").getD "price" }

/-- The storage service: resolved options plus the Redis client handle
(`none` mirrors `client: Redis | null = null`, the no-op mode). -/
structure StorageService where
  opts : ResolvedStorageOptions
  client : Option Unit

/-- Method `StorageService.onModuleInit`: resolve options; when `REDIS_URL` is
unset (empty after the `?? ''` default) stay in no-op mode and never call
`connect`.  The second component counts Redis connections opened. -/
def StorageService.onModuleInit (cfg : ConfigMap) : StorageService × Nat :=
  let opts := resolveOptions cfg
  if opts.redisUrl = "" then ({ opts := opts, client := none }, 0)
  else ({ opts := opts, client := some () }, 1)

def StorageService.latestKey (svc : StorageService) (symbol : String) : String :=
  svc.opts.keyPref ++ ":latest:" ++ symbol.toUpper

def StorageService.historyKey (svc : StorageService) (symbol : String) : String :=
  svc.opts.keyPref ++ ":history:" ++ symbol.toUpper

def StorageService.symbolsKey (svc : StorageService) : String :=
  svc.opts.keyPref ++ ":symbols"

/-- ZADD: insert an entry keeping the list sorted by ascending score. -/
def zaddSorted (score : Nat) (v : AggregatedPrice) :
    List (Nat × AggregatedPrice) → List (Nat × AggregatedPrice)
  | [] => [(score, v)]
  | (s, w) :: t =>
    if score < s then (score, v) :: (s, w) :: t
    else (s, w) :: zaddSorted score v t

/-- ZREMRANGEBYRANK 0 -(max+1): keep only the newest `max` entries. -/
def trimToNewest (l : List (Nat × AggregatedPrice)) (maxEntries : Nat) :
    List (Nat × AggregatedPrice) :=
  l.drop (l.length - maxEntries)

/-- SADD: add a member to a set if not present. -/
def saddMember (l : List String) (s : String) : List String :=
  if s ∈ l then l else l ++ [s]

/-- SREM: remove a member from a set. -/
def sremMember (l : List String) (s : String) : List String :=
  l.filter (fun x => x ≠ s)

/-- The write pipeline of `storePrice` for one price (SET latest with TTL,
ZADD history, ZREMRANGEBYRANK trim, SADD symbol index). -/
def storePipeline (svc : StorageService) (price : AggregatedPrice)
    (st : RedisState) : RedisState :=
  let sym := price.symbol.toUpper
  let hk := svc.historyKey sym
  let hist1 := zaddSorted price.computedAt price ((alookup st.zsets hk).getD [])
  let hist2 := trimToNewest hist1 svc.opts.historyMaxEntries
  { kv := aupdate st.kv (svc.latestKey sym) price,
    zsets := aupdate st.zsets hk hist2,
    sets := aupdate st.sets svc.symbolsKey
      (saddMember ((alookup st.sets svc.symbolsKey).getD []) sym) }

/-- Method `StorageService.storePrice`: no-op without a client; otherwise one
write pipeline. -/
def StorageService.storePrice (svc : StorageService) (price : AggregatedPrice)
    (st : RedisState) : Unit × RedisState :=
  match svc.client with
  | none => ((), st)
  | some _ => ((), storePipeline svc price st)

/-- Method `StorageService.getLatestPrice`: `null` without a client or when the
key is missing/expired. -/
def StorageService.getLatestPrice (svc : StorageService) (symbol : String)
    (st : RedisState) : Option AggregatedPrice × RedisState :=
  match svc.client with
  | none => (none, st)
  | some _ => (alookup st.kv (svc.latestKey symbol), st)

/-- Method `StorageService.getPriceHistory`: ZRANGEBYSCORE over `[fromMs, toMs]`
with an optional LIMIT; empty without a client. -/
def StorageService.getPriceHistory (svc : StorageService) (symbol : String)
    (fromMs : Nat) (toMs : Option Nat) (limit : Option Nat)
    (st : RedisState) : List AggregatedPrice × RedisState :=
  match svc.client with
  | none => ([], st)
  | some _ =>
    let hist := (alookup st.zsets (svc.historyKey symbol)).getD []
    let inRange := hist.filter (fun e =>
      decide (fromMs ≤ e.1) && (match toMs with | none => true | some hi => decide (e.1 ≤ hi)))
    let limited := match limit with | none => inRange | some n => inRange.take n
    (limited.map Prod.snd, st)

/-- Method `StorageService.storePriceBatch`: one pipeline iterating the write
sequence per price; no-op without a client or on an empty batch. -/
def StorageService.storePriceBatch (svc : StorageService)
    (prices : List AggregatedPrice) (st : RedisState) : Unit × RedisState :=
  match svc.client with
  | none => ((), st)
  | some _ => ((), prices.foldl (fun s price => storePipeline svc price s) st)

/-- Method `StorageService.getLatestPriceBatch`: MGET over the uppercased
symbols, omitting symbols with no data; the result Map is modelled as an
association list.  Empty without a client or for an empty symbol list. -/
def StorageService.getLatestPriceBatch (svc : StorageService)
    (symbols : List String) (st : RedisState) :
    List (String × AggregatedPrice) × RedisState :=
  match svc.client with
  | none => ([], st)
  | some _ =>
    (symbols.foldr (fun s acc =>
      match alookup st.kv (svc.latestKey s.toUpper) with
      | none => acc
      | some v => (s.toUpper, v) :: acc) [], st)

/-- Method `StorageService.getTrackedSymbols`: SMEMBERS of the symbol index;
empty without a client. -/
def StorageService.getTrackedSymbols (svc : StorageService) (st : RedisState) :
    List String × RedisState :=
  match svc.client with
  | none => ([], st)
  | some _ => ((alookup st.sets svc.symbolsKey).getD [], st)

/-- Method `StorageService.deleteSymbol`: DEL latest and history keys, SREM from
the index; no-op without a client. -/
def StorageService.deleteSymbol (svc : StorageService) (symbol : String)
    (st : RedisState) : Unit × RedisState :=
  match svc.client with
  | none => ((), st)
  | some _ =>
    let s := symbol.toUpper
    ((), { kv := (st.kv.filter (fun e => e.1 ≠ svc.latestKey s)),
           zsets := (st.zsets.filter (fun e => e.1 ≠ svc.historyKey s)),
           sets := aupdate st.sets svc.symbolsKey
             (sremMember ((alookup st.sets svc.symbolsKey).getD []) s) })

/-! ## Claim theorems -/

/-- C1: For every reachable state of the lending pool and every supported
reserve, `totalDeposited ≥ totalBorrowed` holds; a withdrawal succeeds
only if the paid-out underlying leaves
`totalDeposited - underlying ≥ totalBorrowed`, a borrow succeeds only if
`totalBorrowed + amount ≤ totalDeposited`, and no pool operation ever
makes `totalBorrowed` exceed `totalDeposited`. -/
theorem C1_solvency_invariant :
    (∀ p : Pool, Reachable p →
      ∀ e ∈ p.reserves, e.2.totalBorrowed ≤ e.2.totalDeposited) ∧
    (∀ (p p' : Pool) (u a : String) (s now amt : Nat) (r0 : ReserveState),
      alookup p.reserves a = some r0 → withdraw p u a s now = .ok (p', amt) →
      amt ≤ r0.totalDeposited ∧ r0.totalBorrowed ≤ r0.totalDeposited - amt) ∧
    (∀ (p p' : Pool) (u a : String) (amt now : Nat) (o : OracleState)
      (r0 : ReserveState),
      alookup p.reserves a = some r0 → borrow p u a amt now o = .ok p' →
      r0.totalBorrowed + amt ≤ r0.totalDeposited) :=
  ⟨fun _ hp => (inv_reachable hp).1,
   fun _ _ _ _ _ _ _ _ heq h => (withdraw_guard heq h).2,
   fun _ _ _ _ _ _ _ _ heq h => borrow_guard heq h⟩

/-- C2: For every sequence of accrual calls with non-decreasing
timestamps starting from a freshly created reserve, `bTokenRate` and
`dTokenRate` start at 1.0 (`SCALAR`) and are non-decreasing along the
whole accrual trajectory. -/
theorem C2_rate_monotonicity (p0 : InterestRateParams) (t0 takeRate : Nat)
    (ts : List Nat) (hts : List.Chain' (· ≤ ·) (t0 :: ts)) :
    (initReserve p0 t0).bTokenRate = SCALAR ∧
    (initReserve p0 t0).dTokenRate = SCALAR ∧
    List.Chain' (· ≤ ·)
      ((List.scanl (fun s t => accrue s takeRate t) (initReserve p0 t0) ts).map
        ReserveState.bTokenRate) ∧
    List.Chain' (· ≤ ·)
      ((List.scanl (fun s t => accrue s takeRate t) (initReserve p0 t0) ts).map
        ReserveState.dTokenRate) :=
  ⟨rfl, rfl,
   chain_le_map_scanl _ _ (fun s t => accrue_bTokenRate_le s takeRate t) _ ts,
   chain_le_map_scanl _ _ (fun s t => accrue_dTokenRate_le s takeRate t) _ ts⟩

/-- C3: A Finnhub price fetch errors exactly when the HTTP response is
not ok or the quote is missing or zero; on success it returns the
provider's nonzero quote, never a default or zero price.  On the pool
side, every price-requiring operation fails closed when the oracle has no
price (or only a non-positive price) for an asset it must value:
borrowing fails on an unpriceable debt asset or collateral asset,
collateral removal fails on an unpriceable debt asset or collateral
asset, liquidation initiation fails on an unpriceable debt asset or
collateral asset, and filling a live auction fails when the auctioned
collateral asset cannot be priced — in the all-or-nothing execution
model every such rejection leaves state unchanged. -/
theorem C3_fail_closed :
    (∀ (symbol : String) (resp : FinnhubResponse) (now : Nat),
      (∃ msg, FinnhubAdapter.getLatestPrice symbol resp now = .error msg) ↔
      (resp.ok = false ∨ resp.c = none ∨ resp.c = some 0)) ∧
    (∀ (symbol : String) (resp : FinnhubResponse) (now : Nat)
      (out : NormalizedStockPrice),
      FinnhubAdapter.getLatestPrice symbol resp now = .ok out →
      resp.c = some out.price ∧ out.price ≠ 0) ∧
    (∀ (p p' : Pool) (u a : String) (amt now : Nat) (o : OracleState),
      priceUnavailable o a → borrow p u a amt now o ≠ .ok p') ∧
    (∀ (p p' : Pool) (u a sym : String) (amtc amt now : Nat) (o : OracleState),
      (sym, amtc) ∈ (getPosition p u).collateral → priceUnavailable o sym →
      borrow p u a amt now o ≠ .ok p') ∧
    (∀ (p p' : Pool) (u t da : String) (amt now : Nat) (o : OracleState),
      (getPosition p u).debtAsset = some da → priceUnavailable o da →
      remove_collateral p u t amt now o ≠ .ok p') ∧
    (∀ (p p' : Pool) (u t sym : String) (amtc amt now : Nat) (o : OracleState),
      (sym, amtc) ∈ (getPosition p u).collateral → priceUnavailable o sym →
      remove_collateral p u t amt now o ≠ .ok p') ∧
    (∀ (p p' : Pool) (b c da : String) (pct now : Nat) (o : OracleState),
      (getPosition p b).debtAsset = some da → priceUnavailable o da →
      initiate_liquidation p b c pct now o ≠ .ok p') ∧
    (∀ (p p' : Pool) (b c sym : String) (amtc pct now : Nat) (o : OracleState),
      (sym, amtc) ∈ (getPosition p b).collateral → priceUnavailable o sym →
      initiate_liquidation p b c pct now o ≠ .ok p') ∧
    (∀ (p p' : Pool) (b c : String) (pct now : Nat) (o : OracleState)
      (a : Auction),
      p.auctions.find? (fun x =>
        decide (x.borrower = b ∧ x.collateralAsset = c ∧
          x.status = AuctionStatus.Active)) = some a →
      ¬ (a.start + AUCTION_DURATION < now) → priceUnavailable o c →
      fill_auction p b c pct now o ≠ .ok p') := by
  refine ⟨?_, ?_,
    fun _ _ _ _ _ _ _ hip => borrow_fails_without_price hip,
    fun _ _ _ _ _ _ _ _ _ hmem hip =>
      borrow_fails_without_collateral_price hmem hip,
    fun _ _ _ _ _ _ _ _ hda hip =>
      remove_collateral_fails_without_debt_price hda hip,
    fun _ _ _ _ _ _ _ _ _ hmem hip =>
      remove_collateral_fails_without_collateral_price hmem hip,
    fun _ _ _ _ _ _ _ _ hda hip =>
      initiate_liquidation_fails_without_debt_price hda hip,
    fun _ _ _ _ _ _ _ _ _ hmem hip =>
      initiate_liquidation_fails_without_collateral_price hmem hip,
    fun _ _ _ _ _ _ _ _ hfind hnotexp hip =>
      fill_auction_fails_without_price hfind hnotexp hip⟩
  · intro symbol resp now
    unfold FinnhubAdapter.getLatestPrice
    by_cases hok : resp.ok = false
    · rw [if_pos hok]
      exact ⟨fun _ => Or.inl hok, fun _ => ⟨_, rfl⟩⟩
    · rw [if_neg hok]
      cases hc : resp.c with
      | none => exact ⟨fun _ => Or.inr (Or.inl rfl), fun _ => ⟨_, rfl⟩⟩
      | some q =>
        simp only []
        by_cases hq : q = 0
        · rw [if_pos hq]
          subst hq
          exact ⟨fun _ => Or.inr (Or.inr rfl), fun _ => ⟨_, rfl⟩⟩
        · rw [if_neg hq]
          constructor
          · rintro ⟨msg, hmsg⟩
            exact Except.noConfusion hmsg
          · rintro (h | h | h)
            · exact absurd h hok
            · exact Option.noConfusion h
            · injection h with h
              exact absurd h hq
  · intro symbol resp now out h
    unfold FinnhubAdapter.getLatestPrice at h
    split at h
    · exact Except.noConfusion h
    split at h
    · exact Except.noConfusion h
    rename_i q hc
    split at h
    · exact Except.noConfusion h
    rename_i hq
    injection h with h
    subst h
    exact ⟨hc, hq⟩

/-- C4: The oracle lookups `lastprice` and `price(asset, timestamp)`
return an optional price record and yield `none` — not a default and not
an error — whenever the oracle holds no data for the asset; any returned
record is one of the oracle's stored records for that asset (with the
requested timestamp, for the timestamped lookup). -/
theorem C4_oracle_optional :
    (∀ (o : OracleState) (asset : Asset), alookup o.records asset = none →
      lastprice o asset = none ∧ ∀ ts, priceAt o asset ts = none) ∧
    (∀ (o : OracleState) (asset : Asset), alookup o.records asset = some [] →
      lastprice o asset = none ∧ ∀ ts, priceAt o asset ts = none) ∧
    (∀ (o : OracleState) (asset : Asset) (pd : PriceData),
      lastprice o asset = some pd →
      ∃ l, alookup o.records asset = some l ∧ pd ∈ l) ∧
    (∀ (o : OracleState) (asset : Asset) (ts : Nat) (pd : PriceData),
      priceAt o asset ts = some pd →
      pd.timestamp = ts ∧ ∃ l, alookup o.records asset = some l ∧ pd ∈ l) := by
  refine ⟨?_, ?_, ?_, ?_⟩
  · intro o asset h
    unfold lastprice priceAt
    rw [h]
    exact ⟨rfl, fun ts => rfl⟩
  · intro o asset h
    unfold lastprice priceAt
    rw [h]
    exact ⟨rfl, fun ts => rfl⟩
  · intro o asset pd h
    unfold lastprice at h
    cases hl : alookup o.records asset with
    | none => rw [hl] at h; exact Option.noConfusion h
    | some l =>
      rw [hl] at h
      cases l with
      | nil => exact Option.noConfusion h
      | cons hd tl =>
        injection h with h
        exact ⟨hd :: tl, rfl, h ▸ List.mem_cons_self hd tl⟩
  · intro o asset ts pd h
    unfold priceAt at h
    cases hl : alookup o.records asset with
    | none => rw [hl] at h; exact Option.noConfusion h
    | some l =>
      rw [hl] at h
      have hmem := List.mem_of_find?_eq_some h
      have hts := List.find?_some h
      rw [Nat.beq_eq_true_eq] at hts
      exact ⟨hts, l, rfl, hmem⟩

/-! ## Concrete demonstration scenario (used by the witnesses) -/

/-- Demo interest-rate parameters (rates scaled by `SCALAR`, target
utilization 80%). -/
def demoParams : InterestRateParams :=
  { baseRate := 100000, intermediateRate := 500000, maxRate := 5000000,
    targetUtilization := 8000 }

/-- Demo pool constructor arguments: one supported debt asset (USDC), one
RWA collateral (NVDA, factor 8000 bps), inactive backstop threshold. -/
def demoConfig : PoolConfig :=
  { supportedAssets := [("USDC", demoParams)],
    collateralFactors := [("NVDA", 8000)],
    backstopThreshold := 0,
    backstopTakeRate := 1000,
    creationTime := 0 }

def demoPool0 : Pool := initPool demoConfig

/-- Demo oracle: NVDA at 50, USDC at 1. -/
def demoOracle : OracleState :=
  { records := [(Asset.Other "NVDA", [{ price := 50, timestamp := 0 }]),
                (Asset.Other "USDC", [{ price := 1, timestamp := 0 }])] }

/-- Demo oracle after a price drop: NVDA at 40. -/
def demoOracle2 : OracleState :=
  { records := [(Asset.Other "NVDA", [{ price := 40, timestamp := 5 }]),
                (Asset.Other "USDC", [{ price := 1, timestamp := 5 }])] }

/-- After a lender deposits 1,000,000 USDC. -/
def demoPool1 : Pool :=
  ((deposit demoPool0 "lender" "USDC" 1000000 0).toOption.getD (demoPool0, 0)).1

/-- After the borrower adds 100 NVDA as collateral. -/
def demoPool2 : Pool :=
  (add_collateral demoPool1 "bob" "NVDA" 100).toOption.getD demoPool1

/-- After the borrower borrows 3,900 USDC (collateral value
100·50·0.8 = 4,000 ≥ 3,900). -/
def demoPool3 : Pool :=
  (borrow demoPool2 "bob" "USDC" 3900 0 demoOracle).toOption.getD demoPool2

/-- After the lender withdraws 500,000 bTokens. -/
def demoPool4 : Pool :=
  ((withdraw demoPool3 "lender" "USDC" 500000 0).toOption.getD (demoPool3, 0)).1

/-- The USDC reserve right before the demo withdrawal. -/
def demoReserve3 : ReserveState :=
  (alookup demoPool3.reserves "USDC").getD (initReserve demoParams 0)

/-- The USDC reserve right before the demo borrow. -/
def demoReserve2 : ReserveState :=
  (alookup demoPool2.reserves "USDC").getD (initReserve demoParams 0)

/-- After liquidation of bob's position is initiated (NVDA dropped to 40,
collateral value 3,200 < debt 3,900). -/
def demoPool5 : Pool :=
  (initiate_liquidation demoPool3 "bob" "NVDA" 5000 5 demoOracle2).toOption.getD demoPool3

theorem demoPool4_reachable : Reachable demoPool4 :=
  Reachable.step (Op.withdraw "lender" "USDC" 500000 0)
    (Reachable.step (Op.borrow "bob" "USDC" 3900 0 demoOracle)
      (Reachable.step (Op.add_collateral "bob" "NVDA" 100)
        (Reachable.step (Op.deposit "lender" "USDC" 1000000 0)
          (Reachable.init demoConfig) rfl)
        rfl)
      rfl)
    rfl

theorem demoPool5_reachable : Reachable demoPool5 :=
  Reachable.step (Op.initiate_liquidation "bob" "NVDA" 5000 5 demoOracle2)
    (Reachable.step (Op.borrow "bob" "USDC" 3900 0 demoOracle)
      (Reachable.step (Op.add_collateral "bob" "NVDA" 100)
        (Reachable.step (Op.deposit "lender" "USDC" 1000000 0)
          (Reachable.init demoConfig) rfl)
        rfl)
      rfl)
    rfl

/-- After a backstop deposit of 10,000 by carol. -/
def demoPoolB1 : Pool :=
  (backstop_deposit demoPool0 "carol" 10000).toOption.getD demoPool0

/-- After carol queues a withdrawal of all 10,000 shares at time 1,000
(unlock at 1,000 + 21 days = 1,815,400). -/
def demoPoolB2 : Pool :=
  (initiate_backstop_withdrawal demoPoolB1 "carol" 10000 1000).toOption.getD demoPoolB1

/-- Carol's backstop account while the withdrawal is queued. -/
def demoAcctB2 : BackstopAccount :=
  (alookup demoPoolB2.backstop.accounts "carol").getD { shares := 0, pending := none }

/-- The completed withdrawal at exactly the unlock time. -/
def demoComplete : Except Err (Pool × Nat) :=
  complete_backstop_withdrawal demoPoolB2 "carol" 1815400

def demoPoolB3 : Pool := (demoComplete.toOption.getD (demoPoolB2, 0)).1

/-- The rational value 178.23 (the JavaScript float a provider returns). -/
def demoQuote : Rat := ⟨17823, 100, by decide, by decide⟩

/-- A concrete Finnhub response carrying the quote 178.23 USD. -/
def demoFinnhubResponse : FinnhubResponse :=
  { ok := true, statusText := "OK", c := some demoQuote }

/-- The normalized price the adapter produces for the 178.23 quote. -/
def demoNormalizedPrice : NormalizedStockPrice :=
  (FinnhubAdapter.getLatestPrice "AAPL" demoFinnhubResponse 1700000000000).toOption.getD
    { source := "", symbol := "", price := 0, timestamp := 0 }

/-- C5 (counterexample): the ingestion interface exchanges a monetary
value that is not a fixed-point integer — the Finnhub adapter emits the
raw JavaScript float 178.23 as `NormalizedStockPrice.price`, whose
rational value has denominator 100, so the claim that no floating-point
monetary value crosses any external interface fails on this input. -/
theorem C5_counterexample :
    FinnhubAdapter.getLatestPrice "AAPL" demoFinnhubResponse 1700000000000 =
      .ok demoNormalizedPrice ∧ ¬ isIntegerValued demoNormalizedPrice.price := by
  constructor
  · rfl
  · show ¬ demoNormalizedPrice.price.den = 1
    decide

/-- C5 (amended): at the oracle-contract boundary every monetary quantity
is a fixed-point integer (`PriceData.price : i128`, `timestamp : u64`),
but the off-chain pipeline interfaces (`NormalizedStockPrice.price`,
`PublishParams.price`) carry JavaScript floating-point numbers: the
adapter forwards the provider's raw quote unscaled, so non-integer values
are exchanged there. -/
theorem C5_fixed_point_boundary :
    (∀ pd : PriceData, isIntegerValued (pd.price : Rat)) ∧
    (∀ (symbol : String) (resp : FinnhubResponse) (now : Nat)
      (out : NormalizedStockPrice),
      FinnhubAdapter.getLatestPrice symbol resp now = .ok out →
      out.price = resp.c.getD 0) := by
  constructor
  · intro pd
    exact Rat.den_intCast pd.price
  · intro symbol resp now out h
    unfold FinnhubAdapter.getLatestPrice at h
    split at h
    · exact Except.noConfusion h
    split at h
    · exact Except.noConfusion h
    rename_i q hc
    split at h
    · exact Except.noConfusion h
    injection h with h
    subst h
    rw [hc]
    rfl

theorem C5_fixed_point_boundary_witness :
    isIntegerValued ((({ price := 1782300000, timestamp := 1700000000 } : PriceData)).price : Rat) ∧
    demoNormalizedPrice.price = demoFinnhubResponse.c.getD 0 :=
  ⟨C5_fixed_point_boundary.1 { price := 1782300000, timestamp := 1700000000 },
   C5_fixed_point_boundary.2 "AAPL" demoFinnhubResponse 1700000000000
     demoNormalizedPrice rfl⟩

/-- C6: For every amount X > 0, depositing X into a reserve and then
immediately (same timestamp, zero elapsed accrual) withdrawing all minted
bTokens returns underlying ≤ X — equal minus rounding loss, never more —
because deposit mints shares rounded down and withdrawal computes
underlying rounded down. -/
theorem C6_round_trip (p p1 p2 : Pool) (u a : String)
    (X now shares underlying : Nat) (hX : 0 < X)
    (h1 : deposit p u a X now = .ok (p1, shares))
    (h2 : withdraw p1 u a shares now = .ok (p2, underlying)) :
    underlying ≤ X :=
  deposit_withdraw_round_trip h1 h2

/-- Immediately withdrawing the 1,000,000 bTokens minted by the demo
deposit pays back exactly 1,000,000 (no rounding loss at rate 1.0). -/
def demoPool1w : Pool :=
  ((withdraw demoPool1 "lender" "USDC" 1000000 0).toOption.getD (demoPool1, 0)).1

theorem C6_round_trip_witness : 0 < 1000000 ∧ (1000000 : Nat) ≤ 1000000 :=
  ⟨by decide,
   C6_round_trip demoPool0 demoPool1 demoPool1w "lender" "USDC" 1000000 0
     1000000 1000000 (by decide) rfl rfl⟩

/-- C7: `complete_backstop_withdrawal` succeeds exactly when a pending
withdrawal exists and `now ≥ unlockTime` (set at initiation time +
21 days); before unlock or with no pending withdrawal it fails (with no
state change in the all-or-nothing execution model); on success it burns
the shares and transfers the underlying. -/
theorem C7_backstop_time_gate :
    (∀ (p p' : Pool) (u : String) (amt now : Nat),
      initiate_backstop_withdrawal p u amt now = .ok p' →
      ∃ acct, alookup p.backstop.accounts u = some acct ∧ acct.pending = none ∧
        alookup p'.backstop.accounts u =
          some { acct with pending := some (amt, now + BACKSTOP_LOCK) }) ∧
    (∀ (p : Pool) (u : String) (now : Nat),
      (∃ pr, complete_backstop_withdrawal p u now = .ok pr) ↔
      (∃ acct amt unlock, alookup p.backstop.accounts u = some acct ∧
        acct.pending = some (amt, unlock) ∧ unlock ≤ now)) ∧
    (∀ (p p' : Pool) (u : String) (now ret : Nat) (acct : BackstopAccount)
      (amtq unlock : Nat),
      alookup p.backstop.accounts u = some acct →
      acct.pending = some (amtq, unlock) →
      complete_backstop_withdrawal p u now = .ok (p', ret) →
      unlock ≤ now ∧
      p'.backstop.accounts = aupdate p.backstop.accounts u
        { shares := acct.shares - min amtq acct.shares, pending := none } ∧
      p'.backstop.totalShares = p.backstop.totalShares - min amtq acct.shares ∧
      p'.backstop.totalUnderlying = p.backstop.totalUnderlying - ret ∧
      ret = (if p.backstop.totalShares = 0 then 0
             else min amtq acct.shares * p.backstop.totalUnderlying /
               p.backstop.totalShares)) ∧
    (∀ (p : Pool) (u : String) (now : Nat) (acct : BackstopAccount)
      (amtq unlock : Nat),
      alookup p.backstop.accounts u = some acct →
      acct.pending = some (amtq, unlock) → now < unlock →
      complete_backstop_withdrawal p u now = .error Err.TimeLocked) ∧
    (∀ (p : Pool) (u : String) (now : Nat),
      (∀ acct, alookup p.backstop.accounts u = some acct → acct.pending = none) →
      complete_backstop_withdrawal p u now = .error Err.NoPendingWithdrawal) :=
  ⟨fun _ _ _ _ _ h => initiate_backstop_withdrawal_pending h,
   fun p u now => complete_backstop_withdrawal_ok_iff p u now,
   fun _ _ _ _ _ _ _ _ hacct hpend h =>
     complete_backstop_withdrawal_effect hacct hpend h,
   fun _ _ _ _ _ _ hacct hpend hlt =>
     complete_backstop_withdrawal_locked hacct hpend hlt,
   fun _ _ _ h => complete_backstop_withdrawal_no_pending h⟩

/-- Scenario 4 of the spec: deposit 10,000, queue the withdrawal at time
1,000; completing one second before unlock fails with the time-gate
error, completing at the unlock time succeeds and returns 10,000. -/
theorem C7_backstop_time_gate_witness :
    (∃ acct, alookup demoPoolB1.backstop.accounts "carol" = some acct ∧
      acct.pending = none ∧
      alookup demoPoolB2.backstop.accounts "carol" =
        some { acct with pending := some (10000, 1000 + BACKSTOP_LOCK) }) ∧
    ((∃ pr, complete_backstop_withdrawal demoPoolB2 "carol" 1815400 = .ok pr) ↔
      (∃ acct amt unlock, alookup demoPoolB2.backstop.accounts "carol" = some acct ∧
        acct.pending = some (amt, unlock) ∧ unlock ≤ 1815400)) ∧
    (1815400 ≤ 1815400 ∧
      demoPoolB3.backstop.accounts = aupdate demoPoolB2.backstop.accounts "carol"
        { shares := demoAcctB2.shares - min 10000 demoAcctB2.shares, pending := none } ∧
      demoPoolB3.backstop.totalShares =
        demoPoolB2.backstop.totalShares - min 10000 demoAcctB2.shares ∧
      demoPoolB3.backstop.totalUnderlying = demoPoolB2.backstop.totalUnderlying - 10000 ∧
      (10000 : Nat) = (if demoPoolB2.backstop.totalShares = 0 then 0
        else min 10000 demoAcctB2.shares * demoPoolB2.backstop.totalUnderlying /
          demoPoolB2.backstop.totalShares)) ∧
    complete_backstop_withdrawal demoPoolB2 "carol" 1815399 = .error Err.TimeLocked :=
  ⟨C7_backstop_time_gate.1 demoPoolB1 demoPoolB2 "carol" 10000 1000 rfl,
   C7_backstop_time_gate.2.1 demoPoolB2 "carol" 1815400,
   C7_backstop_time_gate.2.2.1 demoPoolB2 demoPoolB3 "carol" 1815400 10000
     demoAcctB2 10000 1815400 rfl rfl rfl,
   C7_backstop_time_gate.2.2.2.1 demoPoolB2 "carol" 1815399 demoAcctB2 10000 1815400
     rfl rfl (by decide)⟩

/-- C8: `initiate_liquidation` succeeds only when the borrower's health
factor computed from fresh prices is < 1.0, no Active auction already
exists for the (borrower, collateralAsset) pair, and the liability
percentage lies in (0, 10000] basis points; consequently every reachable
state has at most one Active auction per pair, and no auction is ever
created for a healthy position. -/
theorem C8_liquidation_guard :
    (∀ (p p' : Pool) (b c : String) (pct now : Nat) (o : OracleState),
      initiate_liquidation p b c pct now o = .ok p' →
      0 < pct ∧ pct ≤ BPS ∧ hasActiveAuction p.auctions b c = false ∧
      isHealthy (accrueDebtReserve p (getPosition p b) now) o (getPosition p b) =
        .ok false) ∧
    (∀ p : Pool, Reachable p → p.auctions.Pairwise auctionDistinct) :=
  ⟨fun _ _ _ _ _ _ _ h => initiate_liquidation_guard h,
   fun _ hp => (inv_reachable hp).2⟩

theorem C8_liquidation_guard_witness :
    (0 < 5000 ∧ 5000 ≤ BPS ∧
      hasActiveAuction demoPool3.auctions "bob" "NVDA" = false ∧
      isHealthy (accrueDebtReserve demoPool3 (getPosition demoPool3 "bob") 5)
        demoOracle2 (getPosition demoPool3 "bob") = .ok false) ∧
    demoPool5.auctions.Pairwise auctionDistinct :=
  ⟨C8_liquidation_guard.1 demoPool3 demoPool5 "bob" "NVDA" 5000 5 demoOracle2 rfl,
   C8_liquidation_guard.2 demoPool5 demoPool5_reachable⟩

/-- C9: For every input — with or without a ZK proof —
`SorobanPublisher.publishToOracle` resolves with
`{success: true, txHash: "0" × 64}` and submits no transaction at all
(the submission code is commented out); no price is actually published
on-chain by this operation. -/
theorem C9_publisher_mock (params : PublishParams) :
    SorobanPublisher.publishToOracle params =
      .ok ({ txHash := String.mk (List.replicate 64 '0'), success := true }, ([] : List String)) ∧
    (∀ pr, SorobanPublisher.publishToOracle { params with proof := pr } =
      SorobanPublisher.publishToOracle params) :=
  ⟨rfl, fun _ => rfl⟩

def demoPublishParams : PublishParams :=
  { assetId := "TSLA", price := 2504500000, timestamp := 1700000000,
    commit := "abc123", proof := none, proofPublicInputs := none }

theorem C9_publisher_mock_witness :
    SorobanPublisher.publishToOracle demoPublishParams =
      .ok ({ txHash := String.mk (List.replicate 64 '0'), success := true }, ([] : List String)) ∧
    (∀ pr, SorobanPublisher.publishToOracle { demoPublishParams with proof := pr } =
      SorobanPublisher.publishToOracle demoPublishParams) :=
  C9_publisher_mock demoPublishParams

/-- C10: When `REDIS_URL` is not configured, the storage service enters
no-op mode: no Redis connection is opened, and every public method
resolves with its safe empty value (`()`/`null`/`[]`/empty map) without
touching the store. -/
theorem C10_storage_noop (cfg : ConfigMap) (hcfg : cfg.get "REDIS_URL" = none)
    (svc : StorageService) (opened : Nat)
    (hinit : StorageService.onModuleInit cfg = (svc, opened)) :
    svc.client = none ∧ opened = 0 ∧
    (∀ price st, svc.storePrice price st = ((), st)) ∧
    (∀ prices st, svc.storePriceBatch prices st = ((), st)) ∧
    (∀ symbol st, svc.getLatestPrice symbol st = (none, st)) ∧
    (∀ symbol fromMs toMs limit st,
      svc.getPriceHistory symbol fromMs toMs limit st = ([], st)) ∧
    (∀ symbols st, svc.getLatestPriceBatch symbols st = ([], st)) ∧
    (∀ st, svc.getTrackedSymbols st = ([], st)) ∧
    (∀ symbol st, svc.deleteSymbol symbol st = ((), st)) := by
  have hurl : (resolveOptions cfg).redisUrl = "" := by
    unfold resolveOptions
    rw [hcfg]
    rfl
  unfold StorageService.onModuleInit at hinit
  simp only [] at hinit
  rw [if_pos hurl] at hinit
  injection hinit with h1 h2
  subst h1
  subst h2
  exact ⟨rfl, rfl, fun _ _ => rfl, fun _ _ => rfl, fun _ _ => rfl,
    fun _ _ _ _ _ => rfl, fun _ _ => rfl, fun _ => rfl, fun _ _ => rfl⟩

/-- A configuration with no `REDIS_URL` entry. -/
def demoConfigMap : ConfigMap := { entries := [("REDIS_PRICE_TTL_SECONDS", "300")] }

def demoStorage : StorageService := (StorageService.onModuleInit demoConfigMap).1

theorem C10_storage_noop_witness :
    demoStorage.client = none ∧
    (StorageService.onModuleInit demoConfigMap).2 = 0 ∧
    (∀ price st, demoStorage.storePrice price st = ((), st)) ∧
    (∀ prices st, demoStorage.storePriceBatch prices st = ((), st)) ∧
    (∀ symbol st, demoStorage.getLatestPrice symbol st = (none, st)) ∧
    (∀ symbol fromMs toMs limit st,
      demoStorage.getPriceHistory symbol fromMs toMs limit st = ([], st)) ∧
    (∀ symbols st, demoStorage.getLatestPriceBatch symbols st = ([], st)) ∧
    (∀ st, demoStorage.getTrackedSymbols st = ([], st)) ∧
    (∀ symbol st, demoStorage.deleteSymbol symbol st = ((), st)) :=
  C10_storage_noop demoConfigMap rfl demoStorage
    (StorageService.onModuleInit demoConfigMap).2 rfl

/-! ## Remaining witnesses -/

theorem C1_solvency_invariant_witness :
    (∀ e ∈ demoPool4.reserves, e.2.totalBorrowed ≤ e.2.totalDeposited) ∧
    (500000 ≤ demoReserve3.totalDeposited ∧
      demoReserve3.totalBorrowed ≤ demoReserve3.totalDeposited - 500000) ∧
    demoReserve2.totalBorrowed + 3900 ≤ demoReserve2.totalDeposited :=
  ⟨C1_solvency_invariant.1 demoPool4 demoPool4_reachable,
   C1_solvency_invariant.2.1 demoPool3 demoPool4 "lender" "USDC" 500000 0 500000
     demoReserve3 rfl rfl,
   C1_solvency_invariant.2.2 demoPool2 demoPool3 "bob" "USDC" 3900 0 demoOracle
     demoReserve2 rfl rfl⟩

theorem C2_rate_monotonicity_witness :
    (initReserve demoParams 0).bTokenRate = SCALAR ∧
    (initReserve demoParams 0).dTokenRate = SCALAR ∧
    List.Chain' (· ≤ ·)
      ((List.scanl (fun s t => accrue s 1000 t) (initReserve demoParams 0)
        [10, 20, 20]).map ReserveState.bTokenRate) ∧
    List.Chain' (· ≤ ·)
      ((List.scanl (fun s t => accrue s 1000 t) (initReserve demoParams 0)
        [10, 20, 20]).map ReserveState.dTokenRate) :=
  C2_rate_monotonicity demoParams 0 1000 [10, 20, 20]
    (by simp [List.chain'_cons])

/-- An oracle holding no data at all. -/
def demoEmptyOracle : OracleState := { records := [] }

/-- An oracle that can price the debt asset but not the NVDA collateral. -/
def demoOracleUSDCOnly : OracleState :=
  { records := [(Asset.Other "USDC", [{ price := 1, timestamp := 0 }])] }

/-- The Active auction created by the demo liquidation initiation. -/
def demoAuction : Auction :=
  { borrower := "bob", collateralAsset := "NVDA", start := 5,
    liabilityPercent := 5000, status := AuctionStatus.Active }

theorem C3_fail_closed_witness :
    ((∃ msg, FinnhubAdapter.getLatestPrice "AAPL"
        { ok := true, statusText := "OK", c := some 0 } 5 = .error msg) ↔
      (({ ok := true, statusText := "OK", c := some 0 } : FinnhubResponse).ok = false ∨
        ({ ok := true, statusText := "OK", c := some 0 } : FinnhubResponse).c = none ∨
        ({ ok := true, statusText := "OK", c := some 0 } : FinnhubResponse).c = some 0)) ∧
    (demoFinnhubResponse.c = some demoNormalizedPrice.price ∧
      demoNormalizedPrice.price ≠ 0) ∧
    borrow demoPool2 "bob" "USDC" 3900 0 demoEmptyOracle ≠ .ok demoPool3 ∧
    borrow demoPool2 "bob" "USDC" 3900 0 demoOracleUSDCOnly ≠ .ok demoPool3 ∧
    remove_collateral demoPool3 "bob" "NVDA" 10 0 demoEmptyOracle ≠ .ok demoPool3 ∧
    remove_collateral demoPool3 "bob" "NVDA" 10 0 demoOracleUSDCOnly ≠ .ok demoPool3 ∧
    initiate_liquidation demoPool3 "bob" "NVDA" 5000 5 demoEmptyOracle ≠ .ok demoPool3 ∧
    initiate_liquidation demoPool3 "bob" "NVDA" 5000 5 demoOracleUSDCOnly ≠ .ok demoPool3 ∧
    fill_auction demoPool5 "bob" "NVDA" 5000 6 demoEmptyOracle ≠ .ok demoPool3 :=
  ⟨C3_fail_closed.1 "AAPL" { ok := true, statusText := "OK", c := some 0 } 5,
   C3_fail_closed.2.1 "AAPL" demoFinnhubResponse 1700000000000
     demoNormalizedPrice rfl,
   C3_fail_closed.2.2.1 demoPool2 demoPool3 "bob" "USDC" 3900 0 demoEmptyOracle
     (Or.inl rfl),
   C3_fail_closed.2.2.2.1 demoPool2 demoPool3 "bob" "USDC" "NVDA" 100 3900 0
     demoOracleUSDCOnly (by decide) (Or.inl rfl),
   C3_fail_closed.2.2.2.2.1 demoPool3 demoPool3 "bob" "NVDA" "USDC" 10 0
     demoEmptyOracle rfl (Or.inl rfl),
   C3_fail_closed.2.2.2.2.2.1 demoPool3 demoPool3 "bob" "NVDA" "NVDA" 100 10 0
     demoOracleUSDCOnly (by decide) (Or.inl rfl),
   C3_fail_closed.2.2.2.2.2.2.1 demoPool3 demoPool3 "bob" "NVDA" "USDC" 5000 5
     demoEmptyOracle rfl (Or.inl rfl),
   C3_fail_closed.2.2.2.2.2.2.2.1 demoPool3 demoPool3 "bob" "NVDA" "NVDA" 100
     5000 5 demoOracleUSDCOnly (by decide) (Or.inl rfl),
   C3_fail_closed.2.2.2.2.2.2.2.2 demoPool5 demoPool3 "bob" "NVDA" 5000 6
     demoEmptyOracle demoAuction rfl (by decide) (Or.inl rfl)⟩

theorem C4_oracle_optional_witness :
    (lastprice demoEmptyOracle (Asset.Other "NVDA") = none ∧
      ∀ ts, priceAt demoEmptyOracle (Asset.Other "NVDA") ts = none) ∧
    (∃ l, alookup demoOracle.records (Asset.Other "NVDA") = some l ∧
      ({ price := 50, timestamp := 0 } : PriceData) ∈ l) ∧
    (({ price := 50, timestamp := 0 } : PriceData).timestamp = 0 ∧
      ∃ l, alookup demoOracle.records (Asset.Other "NVDA") = some l ∧
        ({ price := 50, timestamp := 0 } : PriceData) ∈ l) :=
  ⟨C4_oracle_optional.1 demoEmptyOracle (Asset.Other "NVDA") rfl,
   C4_oracle_optional.2.2.1 demoOracle (Asset.Other "NVDA")
     { price := 50, timestamp := 0 } rfl,
   C4_oracle_optional.2.2.2 demoOracle (Asset.Other "NVDA") 0
     { price := 50, timestamp := 0 } rfl⟩

end NekoOracle
